import Mathlib

/-!
Verification of the client-side code of the Timisoara accessibility map
(`app/static/js/form-validation.js` and `app/static/js/app.js`).

The JavaScript is shallowly embedded: DOM mutations are abstracted into
returned values and effect lists, `localStorage` is an association list from
keys to strings, and `JSON.stringify` / `JSON.parse` are implemented over an
explicit JSON value type.  Numbers are modelled exactly (integers for JSON
payloads, rationals for `parseFloat`); none of the persisted states in this
codebase contain numbers.
-/

namespace TAM

/-! ## JSON values -/

/-- JSON values as produced by `JSON.parse` and consumed by `JSON.stringify`.
Numbers are modelled as integers: the states this codebase persists
(`accessibility_filters`, `accessibility_preferences`) contain only booleans,
strings, arrays and objects. -/
inductive Json where
  | null
  | bool (b : Bool)
  | num (n : Int)
  | str (s : String)
  | arr (elems : List Json)
  | obj (fields : List (String × Json))

/-- Lowercase hexadecimal digit for a nibble, as emitted by `JSON.stringify`
in `\u00XX` escapes. -/
def hexDigitChar (n : Nat) : Char :=
  if n < 10 then Char.ofNat ('0'.toNat + n) else Char.ofNat ('a'.toNat + (n - 10))

/-- Escaping of a single character inside a JSON string literal, following
`JSON.stringify`: quote and backslash get a backslash escape, the control
characters with short forms use them, remaining control characters use
`\u00XX`, and everything else is emitted verbatim. -/
def escapeChar (c : Char) : List Char :=
  if c = '"' then ['\\', '"']
  else if c = '\\' then ['\\', '\\']
  else if c = Char.ofNat 8 then ['\\', 'b']
  else if c = Char.ofNat 9 then ['\\', 't']
  else if c = Char.ofNat 10 then ['\\', 'n']
  else if c = Char.ofNat 12 then ['\\', 'f']
  else if c = Char.ofNat 13 then ['\\', 'r']
  else if c.toNat < 32 then
    ['\\', 'u', '0', '0', hexDigitChar (c.toNat / 16), hexDigitChar (c.toNat % 16)]
  else [c]

/-- Escape every character of a JSON string body. -/
def escapeChars : List Char → List Char
  | [] => []
  | c :: cs => escapeChar c ++ escapeChars cs

/-- Decimal digits of a natural number, most significant first (the rendering
used by JavaScript template interpolation of a nonnegative integer). -/
def natChars (n : Nat) : List Char :=
  if _h : n < 10 then [Char.ofNat ('0'.toNat + n)]
  else natChars (n / 10) ++ [Char.ofNat ('0'.toNat + n % 10)]
decreasing_by exact Nat.div_lt_self (by omega) (by omega)

/-- Decimal rendering of an integer. -/
def intChars (n : Int) : List Char :=
  if n < 0 then '-' :: natChars n.natAbs else natChars n.natAbs

mutual

/-- Character stream of `JSON.stringify` applied to a JSON value (no
whitespace is emitted, matching single-argument `JSON.stringify`). -/
def stringifyChars : Json → List Char
  | .null => "null".data
  | .bool true => "true".data
  | .bool false => "false".data
  | .num n => intChars n
  | .str s => '"' :: (escapeChars s.data ++ ['"'])
  | .arr elems => '[' :: (stringifyElems elems ++ [']'])
  | .obj fields => '{' :: (stringifyMembers fields ++ ['}'])

/-- Comma-separated stringification of array elements. -/
def stringifyElems : List Json → List Char
  | [] => []
  | [j] => stringifyChars j
  | j :: rest => stringifyChars j ++ ',' :: stringifyElems rest

/-- Comma-separated stringification of object members. -/
def stringifyMembers : List (String × Json) → List Char
  | [] => []
  | [(k, v)] => '"' :: (escapeChars k.data ++ '"' :: ':' :: stringifyChars v)
  | (k, v) :: rest =>
      '"' :: (escapeChars k.data ++ '"' :: ':' :: stringifyChars v)
        ++ ',' :: stringifyMembers rest

end

/-- The string `JSON.stringify` returns for a JSON value. -/
def jsonStringify (j : Json) : String :=
  String.mk (stringifyChars j)

/-! ## JSON parsing (the model of `JSON.parse`) -/

/-- Skip the JSON whitespace characters (space, tab, line feed, carriage
return), as `JSON.parse` does between tokens. -/
def skipWs : List Char → List Char
  | [] => []
  | c :: rest =>
      if c = ' ' ∨ c = '\t' ∨ c = '\n' ∨ c = '\r' then skipWs rest else c :: rest

/-- Numeric value of a hexadecimal digit, if any. -/
def hexDigitVal (c : Char) : Option Nat :=
  if '0' ≤ c ∧ c ≤ '9' then some (c.toNat - '0'.toNat)
  else if 'a' ≤ c ∧ c ≤ 'f' then some (c.toNat - 'a'.toNat + 10)
  else if 'A' ≤ c ∧ c ≤ 'F' then some (c.toNat - 'A'.toNat + 10)
  else none

/-- Value of a four-digit hexadecimal escape. -/
def hex4Val (h1 h2 h3 h4 : Char) : Option Nat := do
  let v1 ← hexDigitVal h1
  let v2 ← hexDigitVal h2
  let v3 ← hexDigitVal h3
  let v4 ← hexDigitVal h4
  pure (v1 * 4096 + v2 * 256 + v3 * 16 + v4)

/-- Parse the body of a JSON string literal after the opening quote, returning
the decoded characters and the remaining input after the closing quote.
Unescaped control characters are rejected, as in `JSON.parse`.  A `\uXXXX`
escape that does not denote a Unicode scalar value is mapped by `Char.ofNat`
to the null character. -/
def parseStrBody : List Char → Option (List Char × List Char)
  | [] => none
  | c :: rest =>
    if c = '"' then some ([], rest)
    else if c = '\\' then
      match rest with
      | [] => none
      | e :: r =>
        if e = '"' then (parseStrBody r).map (fun p => ('"' :: p.1, p.2))
        else if e = '\\' then (parseStrBody r).map (fun p => ('\\' :: p.1, p.2))
        else if e = '/' then (parseStrBody r).map (fun p => ('/' :: p.1, p.2))
        else if e = 'b' then (parseStrBody r).map (fun p => (Char.ofNat 8 :: p.1, p.2))
        else if e = 'f' then (parseStrBody r).map (fun p => (Char.ofNat 12 :: p.1, p.2))
        else if e = 'n' then (parseStrBody r).map (fun p => (Char.ofNat 10 :: p.1, p.2))
        else if e = 'r' then (parseStrBody r).map (fun p => (Char.ofNat 13 :: p.1, p.2))
        else if e = 't' then (parseStrBody r).map (fun p => (Char.ofNat 9 :: p.1, p.2))
        else if e = 'u' then
          match r with
          | h1 :: h2 :: h3 :: h4 :: r2 =>
            match hex4Val h1 h2 h3 h4 with
            | some v => (parseStrBody r2).map (fun p => (Char.ofNat v :: p.1, p.2))
            | none => none
          | _ => none
        else none
    else if c.toNat < 32 then none
    else (parseStrBody rest).map (fun p => (c :: p.1, p.2))

/-- Drop an expected literal sequence of characters from the input. -/
def dropLit : List Char → List Char → Option (List Char)
  | [], cs => some cs
  | l :: ls, c :: cs => if c = l then dropLit ls cs else none
  | _ :: _, [] => none

/-- Parse an unsigned decimal integer (at least one digit). -/
def parseDigits (acc : Nat) : List Char → Option (Nat × List Char)
  | [] => some (acc, [])
  | c :: rest =>
      if c.isDigit then
        match parseDigits (acc * 10 + (c.toNat - '0'.toNat)) rest with
        | some p => some p
        | none => none
      else some (acc, c :: rest)

/-- Parse a JSON number token.  Only integer literals produce a value; a
fraction or exponent part is rejected by this model (no state persisted by
the application contains numbers, so this restriction is never exercised). -/
def parseNumToken : List Char → Option (Json × List Char)
  | [] => none
  | c :: rest =>
      if c = '-' then
        match rest with
        | d :: rest2 =>
            if d.isDigit then
              match parseDigits (d.toNat - '0'.toNat) rest2 with
              | some (n, r) =>
                  match r with
                  | x :: _ => if x = '.' ∨ x = 'e' ∨ x = 'E' then none
                              else some (.num (-(n : Int)), r)
                  | [] => some (.num (-(n : Int)), r)
              | none => none
            else none
        | [] => none
      else if c.isDigit then
        match parseDigits (c.toNat - '0'.toNat) rest with
        | some (n, r) =>
            match r with
            | x :: _ => if x = '.' ∨ x = 'e' ∨ x = 'E' then none
                        else some (.num (n : Int), r)
            | [] => some (.num (n : Int), r)
        | none => none
      else none

mutual

/-- Fuel-bounded recursive-descent parser for a JSON value, mirroring
`JSON.parse`. -/
def parseVal : Nat → List Char → Option (Json × List Char)
  | 0, _ => none
  | fuel + 1, cs =>
    match skipWs cs with
    | [] => none
    | c :: rest =>
      if c = '{' then
        match skipWs rest with
        | '}' :: r2 => some (.obj [], r2)
        | r1 => (parseMembers fuel r1).map (fun p => (.obj p.1, p.2))
      else if c = '[' then
        match skipWs rest with
        | ']' :: r2 => some (.arr [], r2)
        | r1 => (parseElems fuel r1).map (fun p => (.arr p.1, p.2))
      else if c = '"' then
        (parseStrBody rest).map (fun p => (.str (String.mk p.1), p.2))
      else if c = 't' then
        (dropLit ['r', 'u', 'e'] rest).map (fun r => (.bool true, r))
      else if c = 'f' then
        (dropLit ['a', 'l', 's', 'e'] rest).map (fun r => (.bool false, r))
      else if c = 'n' then
        (dropLit ['u', 'l', 'l'] rest).map (fun r => (.null, r))
      else parseNumToken (c :: rest)

/-- Parse one or more array elements up to the closing bracket. -/
def parseElems : Nat → List Char → Option (List Json × List Char)
  | 0, _ => none
  | fuel + 1, cs =>
    match parseVal fuel cs with
    | none => none
    | some (j, r1) =>
      match skipWs r1 with
      | ',' :: r2 => (parseElems fuel r2).map (fun p => (j :: p.1, p.2))
      | ']' :: r2 => some ([j], r2)
      | _ => none

/-- Parse one or more object members up to the closing brace. -/
def parseMembers : Nat → List Char → Option (List (String × Json) × List Char)
  | 0, _ => none
  | fuel + 1, cs =>
    match cs with
    | '"' :: rest =>
      match parseStrBody rest with
      | none => none
      | some (k, r1) =>
        match skipWs r1 with
        | ':' :: r2 =>
          match parseVal fuel r2 with
          | none => none
          | some (v, r3) =>
            match skipWs r3 with
            | ',' :: r4 =>
                match skipWs r4 with
                | r5 => (parseMembers fuel r5).map
                    (fun p => ((String.mk k, v) :: p.1, p.2))
            | '}' :: r4 => some ([(String.mk k, v)], r4)
            | _ => none
        | _ => none
    | _ => none

end

/-- The model of `JSON.parse`: `none` models a thrown `SyntaxError`.  The fuel
is an upper bound on the recursion depth; `length + 20` is sufficient for
every value whose textual form fits in the input. -/
def jsonParse (s : String) : Option Json :=
  match parseVal (s.data.length + 20) s.data with
  | some (j, rest) => if skipWs rest = [] then some j else none
  | none => none

/-- The parser consumes exactly the stringification of a value at any
sufficient fuel, for any continuation of the input. -/
def ParsesTo (n : Nat) (cs : List Char) (j : Json) : Prop :=
  ∀ fuel suffix, n ≤ fuel → parseVal fuel (cs ++ suffix) = some (j, suffix)

/-- The member parser consumes exactly the stringification of a non-empty
member list up to the closing brace, at any sufficient fuel. -/
def MembersParseTo (n : Nat) (fields : List (String × Json)) : Prop :=
  ∀ fuel suffix, n ≤ fuel →
    parseMembers fuel (stringifyMembers fields ++ '}' :: suffix) = some (fields, suffix)

/-! ## JavaScript value helpers -/

/-- Truthiness of a JSON value under JavaScript boolean coercion. -/
def jsTruthy : Json → Bool
  | .null => false
  | .bool b => b
  | .num n => n != 0
  | .str s => s != ""
  | .arr _ => true
  | .obj _ => true

/-- Property read `j[k]`: `some` for a present member of an object, `none`
for `undefined` (absent member or non-object receiver). -/
def jsGetField (j : Json) (k : String) : Option Json :=
  match j with
  | .obj kvs => (kvs.find? (fun p => p.1 == k)).map (fun p => p.2)
  | _ => none

/-- Truthiness of `j[k]`, as in `if (obj.field)`. -/
def jsTruthyField (j : Json) (k : String) : Bool :=
  match jsGetField j k with
  | some v => jsTruthy v
  | none => false

/-- Property assignment `j[k] = v`: updates an existing member in place or
appends a new one.  On a non-object receiver the class code (strict mode)
would throw a `TypeError`, modelled by `none`. -/
def jsObjSet (j : Json) (k : String) (v : Json) : Option Json :=
  match j with
  | .obj kvs =>
      some (.obj (if kvs.any (fun p => p.1 == k) then
        kvs.map (fun p => if p.1 == k then (k, v) else p)
      else kvs ++ [(k, v)]))
  | _ => none

/-- JavaScript strict equality `e === t` where `t` is a string: true exactly
for an equal string value. -/
def jsStrictEqStr (e : Json) (t : String) : Bool :=
  match e with
  | .str s => s == t
  | _ => false

/-- JavaScript whitespace as stripped by `String.prototype.trim` and skipped
by `parseFloat` (the common ASCII white space characters). -/
def isJsWs (c : Char) : Bool :=
  c = ' ' ∨ c = '\t' ∨ c = '\n' ∨ c = '\r' ∨ c = Char.ofNat 11 ∨ c = Char.ofNat 12

/-- JavaScript `String.prototype.trim`. -/
def jsTrim (s : String) : String :=
  String.mk (((s.data.dropWhile isJsWs).reverse.dropWhile isJsWs).reverse)

/-- Numeric value of a list of decimal digits. -/
def digitsToNat (ds : List Char) : Nat :=
  ds.foldl (fun acc c => acc * 10 + (c.toNat - '0'.toNat)) 0

/-- JavaScript `parseFloat`: skip leading whitespace, read an optional sign
and the longest prefix forming a decimal literal (integer digits, optional
fraction, optional exponent that is only consumed when it has digits), and
ignore the rest of the string.  `none` models `NaN` (no digits at all); an
`Infinity` prefix, which fails every finite bound check, is also modelled as
no finite value. -/
def jsParseFloat (s : String) : Option ℚ :=
  let cs := s.data.dropWhile isJsWs
  let signNeg : Bool := match cs with
    | '-' :: _ => true
    | _ => false
  let cs1 : List Char := match cs with
    | '-' :: r => r
    | '+' :: r => r
    | _ => cs
  let ds := cs1.takeWhile Char.isDigit
  let cs2 := cs1.dropWhile Char.isDigit
  let fs : List Char := match cs2 with
    | '.' :: r => r.takeWhile Char.isDigit
    | _ => []
  let cs3 : List Char := match cs2 with
    | '.' :: r => r.dropWhile Char.isDigit
    | _ => cs2
  if ds = [] ∧ fs = [] then none
  else
    let expDigits : List Char := match cs3 with
      | e :: r =>
          if e = 'e' ∨ e = 'E' then
            match r with
            | '-' :: r2 => r2.takeWhile Char.isDigit
            | '+' :: r2 => r2.takeWhile Char.isDigit
            | r2 => r2.takeWhile Char.isDigit
          else []
      | [] => []
    let expNeg : Bool := match cs3 with
      | _ :: '-' :: _ => true
      | _ => false
    let expVal : Int := if expDigits = [] then 0
      else if expNeg then -(digitsToNat expDigits : Int) else (digitsToNat expDigits : Int)
    let mant : ℚ := (digitsToNat ds : ℚ) + (digitsToNat fs : ℚ) / (10 : ℚ) ^ fs.length
    let v : ℚ := mant * (10 : ℚ) ^ expVal
    some (if signNeg then -v else v)

/-! ## Browser local storage -/

/-- The browser's `localStorage`, an association of string keys to string
values. -/
abbrev Store : Type := List (String × String)

/-- An empty storage area (fresh browser profile). -/
def emptyStore : Store := []

/-- `localStorage.getItem`: `none` models the `null` returned for an absent
key. -/
def storeGet (st : Store) (k : String) : Option String :=
  (st.find? (fun p => p.1 == k)).map (fun p => p.2)

/-- `localStorage.setItem`: replace the entry of an existing key, append a
new key at the end. -/
def storeSet : Store → String → String → Store
  | [], k, v => [(k, v)]
  | p :: rest, k, v =>
      if p.1 == k then (k, v) :: rest else p :: storeSet rest k v

/-! ## FormValidator (`form-validation.js`, lines 6-346)

An input field is modelled by the attributes and properties the validator
reads; DOM error rendering (`showFieldError` / `showFieldSuccess`) is
abstracted into the returned pair of the validity flag and the displayed
error message. -/

/-- An input element as seen by `FormValidator`. -/
structure Field where
  type : String
  name : String
  value : String
  checked : Bool
  requiredAttr : Bool
  minLength : Int
  maxLength : Int
  dataset : List (String × String)

/-- `field.dataset[k]`: `none` models `undefined`. -/
def datasetGet (f : Field) (k : String) : Option String :=
  (f.dataset.find? (fun p => p.1 == k)).map (fun p => p.2)

/-- The form's inputs, used by the `match` rule's `querySelector` lookup. -/
abbrev FormCtx : Type := List Field

/-- `this.form.querySelector('[name="..."]')`. -/
def formFieldByName (form : FormCtx) (n : String) : Option Field :=
  form.find? (fun f => f.name == n)

/-- Parameter of a validation rule: the numeric length bounds or the string
parameter of `match` / `coordinates`; `JParam.none` for parameterless rules. -/
inductive JParam where
  | none
  | num (n : Int)
  | str (s : String)
  deriving DecidableEq

/-- String rendering of a rule parameter inside a template message. -/
def JParam.render : JParam → String
  | .none => "undefined"
  | .num n => String.mk (intChars n)
  | .str s => s

/-- A validation-rule reference collected from a field's attributes. -/
structure Validation where
  rule : String
  param : JParam

/-- The `required` rule: the trimmed value is non-empty. -/
def requiredValidator (value : String) : Bool :=
  jsTrim value != ""

/-- Character class of the local part of the email regex. -/
def emailLocalChar (c : Char) : Bool :=
  c.isAlpha ∨ c.isDigit ∨ c = '.' ∨ c = '_' ∨ c = '%' ∨ c = '+' ∨ c = '-'

/-- Character class of the domain part of the email regex. -/
def emailDomainChar (c : Char) : Bool :=
  c.isAlpha ∨ c.isDigit ∨ c = '.' ∨ c = '-'

/-- Matcher for `^[a-zA-Z0-9._%+-]+@[a-zA-Z0-9.-]+\.[a-zA-Z]{2,}$`: one `@`
splitting a non-empty local part from a domain whose final dot is followed by
at least two letters (a match of the anchored regex chooses exactly the last
dot, since no dot may occur after it). -/
def emailMatch (value : String) : Bool :=
  match value.splitOn "@" with
  | [localPart, domain] =>
      localPart != "" && localPart.data.all emailLocalChar &&
      (match domain.splitOn "." with
       | [] => false
       | [_] => false
       | segs =>
           let tld := segs.getLastD ""
           let front := String.intercalate "." (segs.dropLast)
           front != "" && front.data.all emailDomainChar &&
           decide (tld.length ≥ 2) && tld.data.all Char.isAlpha)
  | _ => false

/-- The `email` rule. -/
def emailValidator (value : String) : Bool :=
  value == "" || emailMatch value

/-- The `minLength` rule. -/
def minLengthValidator (value : String) (param : JParam) : Bool :=
  value == "" ||
    (match param with
     | .num n => decide ((value.length : Int) ≥ n)
     | _ => false)

/-- The `maxLength` rule. -/
def maxLengthValidator (value : String) (param : JParam) : Bool :=
  value == "" ||
    (match param with
     | .num n => decide ((value.length : Int) ≤ n)
     | _ => false)

/-- JavaScript line terminators, which `.` in a regex does not match. -/
def isLineTerm (c : Char) : Bool :=
  c = '\n' ∨ c = '\r' ∨ c = Char.ofNat 0x2028 ∨ c = Char.ofNat 0x2029

/-- Match of `.*[class]` from the start of the input: some character of the
class occurs with no line terminator before it. -/
def reSearchClass (p : Char → Bool) : List Char → Bool
  | [] => false
  | c :: cs => if p c then true else if isLineTerm c then false else reSearchClass p cs

/-- Matcher for `^(?=.*[a-z])(?=.*[A-Z])(?=.*\d).{8,}$`. -/
def passwordMatch (value : String) : Bool :=
  reSearchClass Char.isLower value.data &&
  reSearchClass Char.isUpper value.data &&
  reSearchClass Char.isDigit value.data &&
  decide (value.length ≥ 8) && value.data.all (fun c => ¬ isLineTerm c)

/-- The `password` rule. -/
def passwordValidator (value : String) : Bool :=
  value == "" || passwordMatch value

/-- JavaScript `Number(value)` coercion of a string: the trimmed string must
be a complete decimal literal (empty coerces to zero).  Hexadecimal literals
and `Infinity`, which the `numeric` rule rejects anyway via `isFinite`, are
modelled as no finite value. -/
def jsToNumber (s : String) : Option ℚ :=
  let t := jsTrim s
  if t = "" then some 0
  else
    let cs := t.data
    let signNeg : Bool := match cs with
      | '-' :: _ => true
      | _ => false
    let cs1 : List Char := match cs with
      | '-' :: r => r
      | '+' :: r => r
      | _ => cs
    let ds := cs1.takeWhile Char.isDigit
    let cs2 := cs1.dropWhile Char.isDigit
    let fs : List Char := match cs2 with
      | '.' :: r => r.takeWhile Char.isDigit
      | _ => []
    let cs3 : List Char := match cs2 with
      | '.' :: r => r.dropWhile Char.isDigit
      | _ => cs2
    if ds = [] ∧ fs = [] then none
    else
      match cs3 with
      | [] =>
          let mant : ℚ := (digitsToNat ds : ℚ) + (digitsToNat fs : ℚ) / (10 : ℚ) ^ fs.length
          some (if signNeg then -mant else mant)
      | e :: r =>
          if e = 'e' ∨ e = 'E' then
            let (expNeg, r2) : Bool × List Char := match r with
              | '-' :: r2 => (true, r2)
              | '+' :: r2 => (false, r2)
              | r2 => (false, r2)
            let eds := r2.takeWhile Char.isDigit
            if eds = [] ∨ r2.dropWhile Char.isDigit ≠ [] then none
            else
              let expVal : Int := if expNeg then -(digitsToNat eds : Int) else (digitsToNat eds : Int)
              let mant : ℚ := (digitsToNat ds : ℚ) + (digitsToNat fs : ℚ) / (10 : ℚ) ^ fs.length
              some (if signNeg then -(mant * (10 : ℚ) ^ expVal) else mant * (10 : ℚ) ^ expVal)
          else none

/-- The `numeric` rule: `!isNaN(parseFloat(value)) && isFinite(value)`. -/
def numericValidator (value : String) : Bool :=
  value == "" || ((jsParseFloat value).isSome && (jsToNumber value).isSome)

/-- The `match` rule: the referenced field exists and holds the same value. -/
def matchValidator (form : FormCtx) (value : String) (param : JParam) : Bool :=
  match param with
  | .str p =>
      (match formFieldByName form p with
       | some mf => value == mf.value
       | none => false)
  | _ => false

/-- The `coordinates` rule (`form-validation.js` lines 62-77): an empty value
passes, a non-number fails, and the parsed number must lie inside the static
Timisoara bounding box for the given axis. -/
def coordinatesValidator (value : String) (param : JParam) : Bool :=
  if value = "" then true
  else
    match jsParseFloat value with
    | Option.none => false
    | some num =>
        if param = .str "lat" then decide ((45.70 : ℚ) ≤ num ∧ num ≤ (45.80 : ℚ))
        else if param = .str "lng" then decide ((21.10 : ℚ) ≤ num ∧ num ≤ (21.35 : ℚ))
        else true

/-- Dispatch into `this.validationRules[rule].validator`; `none` models an
unknown rule name (skipped by `validateField`). -/
def ruleValidator (form : FormCtx) (rule : String) (value : String) (param : JParam) :
    Option Bool :=
  if rule = "required" then some (requiredValidator value)
  else if rule = "email" then some (emailValidator value)
  else if rule = "minLength" then some (minLengthValidator value param)
  else if rule = "maxLength" then some (maxLengthValidator value param)
  else if rule = "password" then some (passwordValidator value)
  else if rule = "numeric" then some (numericValidator value)
  else if rule = "match" then some (matchValidator form value param)
  else if rule = "coordinates" then some (coordinatesValidator value param)
  else none

/-- The message of `this.validationRules[rule]`, applied to the parameter for
the template messages. -/
def ruleMessage (rule : String) (param : JParam) : String :=
  if rule = "required" then "This field is required."
  else if rule = "email" then "Please enter a valid email address."
  else if rule = "minLength" then
    "This field must be at least " ++ param.render ++ " characters long."
  else if rule = "maxLength" then
    "This field cannot exceed " ++ param.render ++ " characters."
  else if rule = "password" then
    "Password must be at least 8 characters with at least one uppercase letter, one lowercase letter, and one digit."
  else if rule = "numeric" then "Please enter a valid number."
  else if rule = "match" then "This field must match " ++ param.render ++ "."
  else if rule = "coordinates" then
    "Please enter valid " ++ (if param = .str "lat" then "latitude" else "longitude")
      ++ " within Timisoara."
  else ""

/-- `getFieldValidations` (`form-validation.js` lines 191-237): the rules a
field carries, in the order the source pushes them. -/
def getFieldValidations (field : Field) : List Validation :=
  (if field.requiredAttr ∨ datasetGet field "required" = some "true" then
    [⟨"required", .none⟩] else [])
  ++ (if field.type = "email" then [⟨"email", .none⟩] else [])
  ++ (if datasetGet field "type" = some "password" ∨ field.type = "password" then
    [⟨"password", .none⟩] else [])
  ++ (if datasetGet field "type" = some "numeric" ∨ field.type = "number" then
    [⟨"numeric", .none⟩] else [])
  ++ (if field.minLength > 0 then [⟨"minLength", .num field.minLength⟩] else [])
  ++ (if field.maxLength > 0 ∧ field.maxLength < 1000 then
    [⟨"maxLength", .num field.maxLength⟩] else [])
  ++ (match datasetGet field "match" with
      | some m => if m ≠ "" then [⟨"match", .str m⟩] else []
      | Option.none => [])
  ++ (if field.name = "lat" ∨ datasetGet field "type" = some "lat" then
    [⟨"coordinates", .str "lat"⟩] else [])
  ++ (if field.name = "lng" ∨ datasetGet field "type" = some "lng" then
    [⟨"coordinates", .str "lng"⟩] else [])

/-- The value `validateField` validates: the stringified checked state for a
checkbox, the value property otherwise. -/
def fieldValue (field : Field) : String :=
  if field.type = "checkbox" then (if field.checked then "true" else "false")
  else field.value

/-- The loop of `validateField` over the collected rules: the first failing
rule stops validation and yields the displayed message, where a truthy
`data-<rule>-message` attribute overrides the rule's own message. -/
def checkValidations (form : FormCtx) (field : Field) (value : String) :
    List Validation → Bool × Option String
  | [] => (true, Option.none)
  | v :: rest =>
    match ruleValidator form v.rule value v.param with
    | Option.none => checkValidations form field value rest
    | some ok =>
        if ok then checkValidations form field value rest
        else
          let message := ruleMessage v.rule v.param
          let message := match datasetGet field (v.rule ++ "Message") with
            | some m => if m ≠ "" then m else message
            | Option.none => message
          (false, some message)

/-- `validateField` (`form-validation.js` lines 147-184), with the DOM error
display abstracted into the returned message. -/
def validateField (form : FormCtx) (field : Field) : Bool × Option String :=
  checkValidations form field (fieldValue field) (getFieldValidations field)

/-! ## Observable effects

DOM mutations, console logging, notifications and network requests are
abstracted into an effect list returned next to the new state. -/

/-- A location record as returned by the locations API. -/
structure Location where
  id : Nat
  name : String
  address : String
  has_ramp : Bool
  has_accessible_wc : Bool
  has_accessible_parking : Bool
  has_accessible_entrance : Bool
  has_braille : Bool
  has_audio_guidance : Bool
  has_staff_assistance : Bool
  is_approved : Bool

/-- A search hit as returned by the search API. -/
structure SearchResult where
  id : Nat
  name : String
  address : String

/-- Observable side effects of the embedded operations. -/
inductive Effect where
  | logWarn (msg : String)
  | logError (msg : String)
  | notify (msg : String) (kind : String)
  | announce (msg : String)
  | fetch (url : String)
  | renderResults (rs : List SearchResult)
  | renderNoResults
  | renderSearchError
  | renderDetails (loc : Location)
  | applyMapFilters (filters : Json)

/-! ## AccessibilityFilters (`form-validation.js`, lines 387-718)

The `filters` member is kept as a dynamic JSON value, exactly as in
JavaScript: `loadSavedFilters` assigns whatever `JSON.parse` returned.
Storage failures are injected through boolean parameters standing for a
throwing `localStorage` call; `none` as the result of an operation models an
uncaught `TypeError` (the code has no try/catch around its DOM handlers). -/

/-- The storage key of the filter selection. -/
def filtersStorageKey : String := "accessibility_filters"

/-- The canonical filter object built from four booleans and the list of
location-type strings, with the member order of the source literal. -/
def filtersJson (w v h c : Bool) (ts : List String) : Json :=
  .obj [("wheelchair", .bool w), ("visual", .bool v), ("hearing", .bool h),
        ("cognitive", .bool c), ("locationTypes", .arr (ts.map .str))]

/-- The initial `this.filters` of the constructor. -/
def defaultFiltersJson : Json := filtersJson false false false false []

/-- The state of an `AccessibilityFilters` instance together with the
browser's local storage. -/
structure FiltersState where
  filters : Json
  store : Store

/-- A fresh instance on a fresh browser profile. -/
def initialFiltersState : FiltersState :=
  { filters := defaultFiltersJson, store := emptyStore }

/-- `saveFilters` (lines 600-606): stringify the filters under the storage
key; a throwing `setItem` (`setOk = false`) is caught and logged, leaving
both the store and the in-memory filters untouched. -/
def saveFilters (st : FiltersState) (setOk : Bool) : FiltersState × List Effect :=
  if setOk then
    ({ st with store := storeSet st.store filtersStorageKey (jsonStringify st.filters) }, [])
  else (st, [.logWarn "Could not save filters to localStorage:"])

/-- `loadSavedFilters` (lines 611-620): read the stored blob and assign the
parse result to `this.filters`; a throwing `getItem` (`getThrow = true`) or a
parse error is caught and logged.  An absent key or an empty stored string
(falsy) leaves the filters unchanged. -/
def loadSavedFilters (st : FiltersState) (getThrow : Bool) : FiltersState × List Effect :=
  if getThrow then (st, [.logWarn "Could not load filters from localStorage:"])
  else
    match storeGet st.store filtersStorageKey with
    | Option.none => (st, [])
    | some s =>
        if s = "" then (st, [])
        else
          match jsonParse s with
          | some j => ({ st with filters := j }, [])
          | Option.none => (st, [.logWarn "Could not load filters from localStorage:"])

/-- The four accessibility filter buttons (their `data-filter` attributes). -/
inductive FilterType where
  | wheelchair
  | visual
  | hearing
  | cognitive

/-- The `data-filter` attribute value of a filter button. -/
def FilterType.key : FilterType → String
  | .wheelchair => "wheelchair"
  | .visual => "visual"
  | .hearing => "hearing"
  | .cognitive => "cognitive"

/-- The screen-reader name used by `announceFilterChange`. -/
def FilterType.announceName : FilterType → String
  | .wheelchair => "Wheelchair accessibility"
  | .visual => "Visual accessibility"
  | .hearing => "Hearing accessibility"
  | .cognitive => "Cognitive accessibility"

/-- `toggleFilterButton` (lines 471-492): `isActive` is the button's class
state after the DOM toggle; the filter member is assigned, the filters are
applied to the map and saved, and the change is announced. -/
def toggleFilterButton (st : FiltersState) (ft : FilterType) (isActive : Bool)
    (setOk : Bool) : Option (FiltersState × List Effect) :=
  match jsObjSet st.filters ft.key (.bool isActive) with
  | Option.none => Option.none
  | some f' =>
      let st1 : FiltersState := { st with filters := f' }
      let (st2, effs) := saveFilters st1 setOk
      some (st2, [.applyMapFilters f'] ++ effs ++
        [.announce (ft.announceName ++ " filter "
          ++ (if isActive then "enabled" else "disabled"))])

/-- `toggleTypeFilter` (lines 498-531): add or remove the checkbox's
`data-type` string in `locationTypes`, then apply, save and announce.
Reading `.includes` / assigning on a non-array `locationTypes` throws,
modelled by `none`. -/
def toggleTypeFilter (st : FiltersState) (locationType : String) (isChecked : Bool)
    (setOk : Bool) : Option (FiltersState × List Effect) :=
  match jsGetField st.filters "locationTypes" with
  | some (.arr elems) =>
      let elems' :=
        if isChecked then
          (if elems.any (fun e => jsStrictEqStr e locationType) then elems
           else elems ++ [.str locationType])
        else elems.filter (fun e => ! jsStrictEqStr e locationType)
      match jsObjSet st.filters "locationTypes" (.arr elems') with
      | some f' =>
          let st1 : FiltersState := { st with filters := f' }
          let (st2, effs) := saveFilters st1 setOk
          some (st2, [.applyMapFilters f'] ++ effs ++
            [.announce (locationType ++ " filter "
              ++ (if isChecked then "enabled" else "disabled"))])
      | Option.none => Option.none
  | _ => Option.none

/-- `hasActiveFilters` (lines 548-556), including JavaScript's evaluation of
`this.filters.locationTypes.length > 0` on a non-canonical value: `none`
models a thrown `TypeError` (`length` of `undefined` or of `null`). -/
def hasActiveFilters (filters : Json) : Option Bool :=
  match filters with
  | .null => Option.none
  | _ =>
      if jsTruthyField filters "wheelchair" ∨ jsTruthyField filters "visual"
          ∨ jsTruthyField filters "hearing" ∨ jsTruthyField filters "cognitive" then
        some true
      else
        match jsGetField filters "locationTypes" with
        | some (.arr elems) => some (decide (elems.length > 0))
        | some (.str s) => some (decide (s.length > 0))
        | some (.num _) => some false
        | some (.bool _) => some false
        | some (.obj _) => some false
        | some .null => Option.none
        | Option.none => Option.none

/-- `resetFilters` (lines 561-595): restore the default filter object,
apply, save and announce. -/
def resetFilters (st : FiltersState) (setOk : Bool) : FiltersState × List Effect :=
  let st1 : FiltersState := { st with filters := defaultFiltersJson }
  let (st2, effs) := saveFilters st1 setOk
  (st2, [.applyMapFilters defaultFiltersJson] ++ effs ++
    [.announce "All filters have been reset"])

/-- `setFromUserPreferences` (lines 626-661): a falsy preferences value
returns immediately; otherwise each truthy need flag forces the matching
filter to `true`, and the filters are applied and saved. -/
def setFromUserPreferences (st : FiltersState) (preferences : Json) (setOk : Bool) :
    Option (FiltersState × List Effect) :=
  if ¬ jsTruthy preferences then some (st, [])
  else
    let setIf (f : Json) (cond : Bool) (k : String) : Option Json :=
      if cond then jsObjSet f k (.bool true) else some f
    match setIf st.filters (jsTruthyField preferences "needs_wheelchair") "wheelchair" with
    | Option.none => Option.none
    | some f1 =>
      match setIf f1 (jsTruthyField preferences "needs_visual_assistance") "visual" with
      | Option.none => Option.none
      | some f2 =>
        match setIf f2 (jsTruthyField preferences "needs_hearing_assistance") "hearing" with
        | Option.none => Option.none
        | some f3 =>
          match setIf f3 (jsTruthyField preferences "needs_cognitive_assistance") "cognitive" with
          | Option.none => Option.none
          | some f4 =>
              let st1 : FiltersState := { st with filters := f4 }
              let (st2, effs) := saveFilters st1 setOk
              some (st2, [.applyMapFilters f4] ++ effs)

/-- A filter object of the canonical shape: exactly the four booleans and a
list of location-type strings. -/
def CanonicalFilters (j : Json) : Prop :=
  ∃ w v h c ts, j = filtersJson w v h c ts

/-- Every blob stored under the filters key is the stringification of a
canonical filter object. -/
def FiltersStoreOk (store : Store) : Prop :=
  ∀ s, storeGet store filtersStorageKey = some s →
    ∃ j, CanonicalFilters j ∧ s = jsonStringify j

/-- The shape invariant of an `AccessibilityFilters` instance. -/
def FiltersInv (st : FiltersState) : Prop :=
  CanonicalFilters st.filters ∧ FiltersStoreOk st.store

/-- The operations of an `AccessibilityFilters` instance, each carrying the
external inputs it reacts to (DOM state, server preferences, storage
failures). -/
inductive FOp where
  | load (getThrow : Bool)
  | toggleBtn (ft : FilterType) (isActive : Bool) (setOk : Bool)
  | toggleType (locationType : String) (isChecked : Bool) (setOk : Bool)
  | reset (setOk : Bool)
  | setPrefs (preferences : Json) (setOk : Bool)

/-- One step of the instance; `none` models an uncaught exception. -/
def stepF (st : FiltersState) : FOp → Option FiltersState
  | .load getThrow => some (loadSavedFilters st getThrow).1
  | .toggleBtn ft isActive setOk => (toggleFilterButton st ft isActive setOk).map (fun p => p.1)
  | .toggleType t isChecked setOk => (toggleTypeFilter st t isChecked setOk).map (fun p => p.1)
  | .reset setOk => some (resetFilters st setOk).1
  | .setPrefs prefs setOk => (setFromUserPreferences st prefs setOk).map (fun p => p.1)

/-- Run a sequence of operations from a given state. -/
def runOps (st : FiltersState) : List FOp → Option FiltersState
  | [] => some st
  | op :: ops =>
      match stepF st op with
      | some st' => runOps st' ops
      | Option.none => Option.none

/-! ## AccessibilityApp (`app.js`, lines 9-405)

The app state holds the contrast flag, the text-size name and the optional
server-provided user preferences.  The state is typed by the constructor's
initial values; a stored non-boolean `highContrast` is read through its
truthiness (`preferences.highContrast || false`) and a stored non-string or
empty `textSize` collapses to the `'normal'` fallback. -/

/-- The storage key of the UI preferences. -/
def prefsStorageKey : String := "accessibility_preferences"

/-- `this.state` of `AccessibilityApp`. -/
structure AppState where
  highContrast : Bool
  textSize : String
  userPreferences : Option Json

/-- The constructor's initial state. -/
def initialAppState : AppState :=
  { highContrast := false, textSize := "normal", userPreferences := Option.none }

/-- The object literal `savePreferences` stringifies. -/
def prefsJson (hc : Bool) (ts : String) : Json :=
  .obj [("highContrast", .bool hc), ("textSize", .str ts)]

/-- `savePreferences` (`app.js` lines 306-315): store the two preference
members as JSON; a throwing `setItem` is caught and logged. -/
def savePreferences (st : AppState) (store : Store) (setOk : Bool) :
    Store × List Effect :=
  if setOk then
    (storeSet store prefsStorageKey (jsonStringify (prefsJson st.highContrast st.textSize)), [])
  else (store, [.logWarn "Could not save preferences to localStorage:"])

/-- `loadPreferences` (`app.js` lines 320-337).  The try block first applies
the stored preferences and then parses the server-provided
`data-preferences` attribute; a throw at any point is caught and logged, but
mutations already made to `this.state` persist. -/
def loadPreferences (st : AppState) (store : Store) (getThrow : Bool)
    (dsPrefs : Option String) : AppState × List Effect :=
  if getThrow then (st, [.logWarn "Could not load preferences from localStorage:"])
  else
    let fromStore : Except AppState AppState :=
      match storeGet store prefsStorageKey with
      | Option.none => .ok st
      | some s =>
          if s = "" then .ok st
          else
            match jsonParse s with
            | Option.none => .error st
            | some preferences => .ok { st with
                highContrast := jsTruthyField preferences "highContrast",
                textSize := match jsGetField preferences "textSize" with
                  | some (.str t) => if t = "" then "normal" else t
                  | _ => "normal" }
    match fromStore with
    | .error st' => (st', [.logWarn "Could not load preferences from localStorage:"])
    | .ok st1 =>
        match dsPrefs with
        | Option.none => (st1, [])
        | some d =>
            if d = "" then (st1, [])
            else
              match jsonParse d with
              | Option.none => (st1, [.logWarn "Could not load preferences from localStorage:"])
              | some j => ({ st1 with userPreferences := some j }, [])

/-- `toggleHighContrast` (`app.js` lines 216-232), state transition only. -/
def toggleHighContrast (st : AppState) : AppState :=
  { st with highContrast := ¬ st.highContrast }

/-- `increaseTextSize` (`app.js` lines 237-255), state transition only: the
body class changes and the `savePreferences` call do not touch the state. -/
def increaseTextSize (st : AppState) : AppState :=
  if st.textSize = "normal" then { st with textSize := "large" }
  else if st.textSize = "large" then { st with textSize := "xl" }
  else st

/-- `decreaseTextSize` (`app.js` lines 260-278), state transition only. -/
def decreaseTextSize (st : AppState) : AppState :=
  if st.textSize = "xl" then { st with textSize := "large" }
  else if st.textSize = "large" then { st with textSize := "normal" }
  else st

/-! ## AccessibilityMap (`form-validation.js`, lines 758-1289)

The Leaflet map itself is external; the model keeps the marker lists of the
approved and pending layers and the current filter object, and records the
network requests and user-visible reactions as effects.  A fetch outcome of
`none` stands for any rejection of the promise chain (network failure,
malformed JSON body). -/

/-- Percent-encoding of one byte, with uppercase hexadecimal digits. -/
def pctByte (b : Nat) : List Char :=
  let hexUp (n : Nat) : Char :=
    if n < 10 then Char.ofNat ('0'.toNat + n) else Char.ofNat ('A'.toNat + (n - 10))
  ['%', hexUp (b / 16), hexUp (b % 16)]

/-- Characters `encodeURIComponent` leaves unescaped. -/
def uriUnreserved (c : Char) : Bool :=
  c.isAlpha ∨ c.isDigit ∨ c = '-' ∨ c = '_' ∨ c = '.' ∨ c = '!' ∨ c = '~'
    ∨ c = '*' ∨ c = Char.ofNat 39 ∨ c = '(' ∨ c = ')'

/-- `encodeURIComponent`: unreserved characters stay, all others become the
percent-encoded UTF-8 bytes of the character. -/
def encodeURIComponent (s : String) : String :=
  String.mk (s.data.foldr
    (fun c acc =>
      (if uriUnreserved c then [c]
       else ((String.mk [c]).toUTF8.toList.map (fun b => pctByte b.toNat)).flatten) ++ acc)
    [])

/-- Characters kept verbatim by `application/x-www-form-urlencoded`
serialization (`URLSearchParams.toString`). -/
def formUnreserved (c : Char) : Bool :=
  c.isAlpha ∨ c.isDigit ∨ c = '-' ∨ c = '_' ∨ c = '.' ∨ c = '*'

/-- `URLSearchParams` encoding of one string: space becomes `+`, unreserved
characters stay, the rest is percent-encoded UTF-8. -/
def formEncode (s : String) : String :=
  String.mk (s.data.foldr
    (fun c acc =>
      (if c = ' ' then ['+']
       else if formUnreserved c then [c]
       else ((String.mk [c]).toUTF8.toList.map (fun b => pctByte b.toNat)).flatten) ++ acc)
    [])

/-- `URLSearchParams.toString` over appended pairs. -/
def formParamsString (ps : List (String × String)) : String :=
  String.intercalate "&" (ps.map (fun p => formEncode p.1 ++ "=" ++ formEncode p.2))

/-- String coercion of a JSON value appended to `URLSearchParams` (only
strings occur in this codebase's filter lists). -/
def jsParamStr : Json → String
  | .str s => s
  | .bool b => if b then "true" else "false"
  | .num n => String.mk (intChars n)
  | .null => "null"
  | .arr _ => ""
  | .obj _ => ""

/-- The filter query pairs `loadLocations` appends (lines 919-928).  A
non-array `locationTypes` would throw in `forEach`; the states reaching this
code hold the canonical array. -/
def filterParams (filters : Json) : List (String × String) :=
  (if jsTruthyField filters "wheelchair" then [("wheelchair", "true")] else [])
  ++ (if jsTruthyField filters "visual" then [("visual", "true")] else [])
  ++ (if jsTruthyField filters "hearing" then [("hearing", "true")] else [])
  ++ (if jsTruthyField filters "cognitive" then [("cognitive", "true")] else [])
  ++ (match jsGetField filters "locationTypes" with
      | some (.arr elems) => elems.map (fun e => ("type", jsParamStr e))
      | _ => [])

/-- The URL of a search request (line 875). -/
def searchUrl (q : String) : String :=
  "/api/search?q=" ++ encodeURIComponent q

/-- The URL of a locations listing request (line 931). -/
def locationsUrl (filters : Json) : String :=
  "/api/locations?" ++ formParamsString (filterParams filters)

/-- The URL of a location details request (line 1052). -/
def locationDetailUrl (id : Nat) : String :=
  "/api/locations/" ++ String.mk (natChars id)

/-- The map-component state the embedded operations touch. -/
structure MapState where
  approved : List Location
  pending : List Location
  currentFilters : Json

/-- `searchLocations` (lines 871-908): issue the search fetch and render the
results; any rejection in the promise chain reaches the final `.catch`,
which logs and renders a static error message. -/
def searchLocations (q : String) (outcome : Option (List SearchResult)) : List Effect :=
  .fetch (searchUrl q) ::
    (match outcome with
     | Option.none => [.logError "Search error:", .renderSearchError]
     | some results =>
         if results.length = 0 then [.renderNoResults]
         else [.renderResults results])

/-- `addMarkersToMap` (lines 945-957): each location's marker joins the
approved or the pending layer. -/
def addMarkersToMap (st : MapState) (locations : List Location) : MapState :=
  { st with
    approved := st.approved ++ locations.filter (fun l => l.is_approved),
    pending := st.pending ++ locations.filter (fun l => ¬ l.is_approved) }

/-- `loadLocations` (lines 913-940): clear both marker layers, fetch the
filtered listing, and either add the markers or log and notify on a
rejection. -/
def loadLocations (st : MapState) (outcome : Option (List Location)) :
    MapState × List Effect :=
  let st1 : MapState := { st with approved := [], pending := [] }
  let url := locationsUrl st.currentFilters
  match outcome with
  | some locations => (addMarkersToMap st1 locations, [.fetch url])
  | Option.none =>
      (st1, [.fetch url, .logError "Error loading locations:",
             .notify "Error loading locations. Please try again." "error"])

/-- `applyFilters` of the map (lines 1208-1211): copy the incoming filters
and reload. -/
def mapApplyFilters (st : MapState) (filters : Json) (outcome : Option (List Location)) :
    MapState × List Effect :=
  loadLocations { st with currentFilters := filters } outcome

/-- `showLocationDetails` (lines 1051-1073): fetch one location and render
the sidebar, logging and notifying on a rejection. -/
def showLocationDetails (id : Nat) (outcome : Option Location) : List Effect :=
  .fetch (locationDetailUrl id) ::
    (match outcome with
     | some loc => [.renderDetails loc]
     | Option.none => [.logError "Error loading location details:",
                       .notify "Error loading location details. Please try again." "error"])

/-- `getMarkerIconClass` (lines 1003-1027) as the list of CSS classes the
source accumulates before joining. -/
def getMarkerIconClassList (location : Location) : List String :=
  let classes := ["marker"]
  let isWheelchair := location.has_ramp || location.has_accessible_entrance
    || location.has_accessible_parking
  let isVisual := location.has_braille || location.has_audio_guidance
  let isCognitive := location.has_staff_assistance
  let isHearing := location.has_audio_guidance
  let classes :=
    if isWheelchair && isVisual && isCognitive && isHearing then
      classes ++ ["fully-accessible"]
    else
      classes ++ (if isWheelchair then ["wheelchair"] else [])
        ++ (if isVisual then ["visual"] else [])
        ++ (if isCognitive then ["cognitive"] else [])
        ++ (if isHearing then ["hearing"] else [])
  if ¬ location.is_approved then classes ++ ["pending"] else classes

/-- The joined class string the source returns. -/
def getMarkerIconClass (location : Location) : String :=
  String.intercalate " " (getMarkerIconClassList location)

/-- The prefix of a URL before its query string. -/
def urlPath (url : String) : List Char :=
  url.data.takeWhile (fun c => ¬ c = '?')

/-- Whether one character list starts with another. -/
def listStartsWith : List Char → List Char → Bool
  | [], _ => true
  | _ :: _, [] => false
  | p :: ps, c :: cs => p == c && listStartsWith ps cs

/-- The shape (endpoint kind) of an API request URL: the path with a
location-id segment generalized to `:id`. -/
def requestShapeOf (url : String) : String :=
  let path := urlPath url
  if listStartsWith "/api/locations/".data path
      ∧ path.length > "/api/locations/".data.length then "/api/locations/:id"
  else String.mk path

/-- The set of distinct request shapes the map component's operations can
produce: search (`searchLocations`), listing (`loadLocations`), and details
(`showLocationDetails`). -/
def apiRequestShapes : Set String :=
  {s | (∃ q, s = requestShapeOf (searchUrl q))
    ∨ (∃ f, s = requestShapeOf (locationsUrl f))
    ∨ (∃ i, s = requestShapeOf (locationDetailUrl i))}

/-! ## Theorems -/

/-- C8: for every location record, `fully-accessible` is in the marker class
list exactly when the wheelchair, visual, cognitive and hearing derived flags
all hold (the conjunction of ramp-or-entrance-or-parking,
braille-or-audio, staff assistance and audio guidance); in that case none of
the individual classes appear, otherwise each individual class appears
exactly when its derived flag holds; `pending` appears exactly when the
location is not approved. -/
theorem getMarkerIconClass_spec (location : Location) :
    ("fully-accessible" ∈ getMarkerIconClassList location ↔
      ((location.has_ramp || location.has_accessible_entrance
          || location.has_accessible_parking)
        && (location.has_braille || location.has_audio_guidance)
        && location.has_staff_assistance && location.has_audio_guidance) = true)
    ∧ ("wheelchair" ∈ getMarkerIconClassList location ↔
      (!((location.has_ramp || location.has_accessible_entrance
            || location.has_accessible_parking)
          && (location.has_braille || location.has_audio_guidance)
          && location.has_staff_assistance && location.has_audio_guidance)
        && (location.has_ramp || location.has_accessible_entrance
            || location.has_accessible_parking)) = true)
    ∧ ("visual" ∈ getMarkerIconClassList location ↔
      (!((location.has_ramp || location.has_accessible_entrance
            || location.has_accessible_parking)
          && (location.has_braille || location.has_audio_guidance)
          && location.has_staff_assistance && location.has_audio_guidance)
        && (location.has_braille || location.has_audio_guidance)) = true)
    ∧ ("cognitive" ∈ getMarkerIconClassList location ↔
      (!((location.has_ramp || location.has_accessible_entrance
            || location.has_accessible_parking)
          && (location.has_braille || location.has_audio_guidance)
          && location.has_staff_assistance && location.has_audio_guidance)
        && location.has_staff_assistance) = true)
    ∧ ("hearing" ∈ getMarkerIconClassList location ↔
      (!((location.has_ramp || location.has_accessible_entrance
            || location.has_accessible_parking)
          && (location.has_braille || location.has_audio_guidance)
          && location.has_staff_assistance && location.has_audio_guidance)
        && location.has_audio_guidance) = true)
    ∧ ("pending" ∈ getMarkerIconClassList location ↔ location.is_approved = false) := by
  obtain ⟨i, nm, ad, r, wc, pk, en, br, au, sa, ap⟩ := location
  cases r <;> cases pk <;> cases en <;> cases br <;> cases au <;> cases sa <;> cases ap <;>
    simp [getMarkerIconClassList]

/-- C9: starting from a text size in the three-step scale, increasing and
then decreasing restores the original size, `xl` is a fixed point of
increase, `normal` is a fixed point of decrease, and both operations keep
the size within the scale. -/
theorem textSize_increase_decrease (st : AppState) :
    (st.textSize = "normal" ∨ st.textSize = "large" →
      decreaseTextSize (increaseTextSize st) = st)
    ∧ (st.textSize = "xl" → increaseTextSize st = st)
    ∧ (st.textSize = "normal" → decreaseTextSize st = st)
    ∧ (st.textSize = "normal" ∨ st.textSize = "large" ∨ st.textSize = "xl" →
      ((increaseTextSize st).textSize = "normal"
          ∨ (increaseTextSize st).textSize = "large"
          ∨ (increaseTextSize st).textSize = "xl")
      ∧ ((decreaseTextSize st).textSize = "normal"
          ∨ (decreaseTextSize st).textSize = "large"
          ∨ (decreaseTextSize st).textSize = "xl")) := by
  obtain ⟨hc, ts, up⟩ := st
  refine ⟨?_, ?_, ?_, ?_⟩
  · rintro (h | h) <;> subst h <;> simp [increaseTextSize, decreaseTextSize]
  · intro h
    subst h
    simp [increaseTextSize]
  · intro h
    subst h
    simp [decreaseTextSize]
  · rintro (h | h | h) <;> subst h <;> simp [increaseTextSize, decreaseTextSize]

/-- Witness for C9 at the concrete initial state. -/
theorem textSize_increase_decrease_witness :
    decreaseTextSize (increaseTextSize initialAppState) = initialAppState :=
  (textSize_increase_decrease initialAppState).1 (Or.inl rfl)

/-- C1: for every non-empty value, the `coordinates` rule with parameter
`lat` accepts exactly when the value parses (in the `parseFloat` sense) to a
number between 45.70 and 45.80, and with parameter `lng` exactly when it
parses to a number between 21.10 and 21.35; every non-empty value outside
these bounds is rejected. -/
theorem coordinates_validator_bounds (value : String) (h : value ≠ "") :
    (coordinatesValidator value (.str "lat") = true ↔
      ∃ num : ℚ, jsParseFloat value = some num
        ∧ (45.70 : ℚ) ≤ num ∧ num ≤ (45.80 : ℚ))
    ∧ (coordinatesValidator value (.str "lng") = true ↔
      ∃ num : ℚ, jsParseFloat value = some num
        ∧ (21.10 : ℚ) ≤ num ∧ num ≤ (21.35 : ℚ)) := by
  unfold coordinatesValidator
  rw [if_neg h, if_neg h]
  cases hp : jsParseFloat value with
  | none => simp
  | some q => simp

/-- Evaluation of the parseFloat model on the witness input. -/
theorem jsParseFloat_45_75 : jsParseFloat "45.75" = some ((183 : ℚ) / 4) := by
  have h0 : "45.75".data = ['4', '5', '.', '7', '5'] := rfl
  simp only [jsParseFloat, h0]
  simp +decide [List.dropWhile, List.takeWhile, isJsWs, digitsToNat, List.foldl]
  norm_num

/-- Witness for C1: the in-bounds latitude string 45.75 is accepted. -/
theorem coordinates_validator_bounds_witness :
    coordinatesValidator "45.75" (.str "lat") = true :=
  (coordinates_validator_bounds "45.75" (by decide)).1.mpr
    ⟨(183 : ℚ) / 4, jsParseFloat_45_75, by norm_num, by norm_num⟩

/-- C2: a field carrying the `required` rule whose validated value trims to
the empty string fails validation with the required-field message, or with
the field's `data-required-message` override when that is non-empty. -/
theorem validateField_required_empty (form : FormCtx) (field : Field)
    (hreq : field.requiredAttr ∨ datasetGet field "required" = some "true")
    (hval : jsTrim (fieldValue field) = "") :
    validateField form field =
      (false, some (match datasetGet field "requiredMessage" with
        | some m => if m ≠ "" then m else "This field is required."
        | Option.none => "This field is required.")) := by
  have hcond : field.requiredAttr = true ∨ datasetGet field "required" = some "true" := by
    rcases hreq with h | h
    · exact Or.inl h
    · exact Or.inr h
  unfold validateField getFieldValidations
  rw [if_pos hcond]
  simp only [List.cons_append, List.nil_append]
  unfold checkValidations
  simp [ruleValidator, requiredValidator, ruleMessage, hval]

/-- Witness for C2 at a concrete required text field with a blank value. -/
theorem validateField_required_empty_witness :
    validateField []
      { type := "text", name := "fname", value := "   ", checked := false,
        requiredAttr := true, minLength := 0, maxLength := 0, dataset := [] } =
      (false, some "This field is required.") :=
  validateField_required_empty []
    { type := "text", name := "fname", value := "   ", checked := false,
      requiredAttr := true, minLength := 0, maxLength := 0, dataset := [] }
    (Or.inl rfl) (by decide)

/-- C10: immediately after `resetFilters` no filter is active, and on the
canonical filter object `hasActiveFilters` returns true exactly when one of
the four accessibility booleans holds or the location-type list is
non-empty. -/
theorem hasActiveFilters_spec :
    (∀ (st : FiltersState) (setOk : Bool),
      hasActiveFilters ((resetFilters st setOk).1).filters = some false)
    ∧ (∀ (w v h c : Bool) (ts : List String),
      hasActiveFilters (filtersJson w v h c ts) = some (w || v || h || c || !ts.isEmpty)) := by
  constructor
  · intro st setOk
    cases setOk <;> rfl
  · intro w v h c ts
    cases ts with
    | nil => cases w <;> cases v <;> cases h <;> cases c <;> rfl
    | cons hd tl =>
        cases w <;> cases v <;> cases h <;> cases c <;>
          simp [hasActiveFilters, filtersJson, jsTruthyField, jsGetField, jsTruthy]

/-! ### Round trip of `JSON.parse` over `JSON.stringify` -/

/-- Rebuilding a string from its character data. -/
theorem str_mk_data (s : String) : String.mk s.data = s := by
  cases s
  rfl

/-- The hexadecimal digit emitted for a nibble reads back as its value. -/
theorem hexVal_hexChar (n : Nat) (h : n < 16) : hexDigitVal (hexDigitChar n) = some n := by
  interval_cases n <;> rfl

/-- The string-body parser undoes the stringifier's escaping, leaving the
input after the closing quote untouched. -/
theorem parseStrBody_escapeChars (s : List Char) :
    ∀ rest, parseStrBody (escapeChars s ++ '"' :: rest) = some (s, rest) := by
  induction s with
  | nil =>
    intro rest
    show parseStrBody ('"' :: rest) = _
    rw [parseStrBody.eq_def]
    simp
  | cons c cs ih =>
    intro rest
    show parseStrBody ((escapeChar c ++ escapeChars cs) ++ '"' :: rest) = _
    rw [List.append_assoc]
    by_cases h1 : c = '"'
    · subst h1
      rw [show escapeChar '"' = ['\\', '"'] from rfl]
      rw [parseStrBody.eq_def]
      simp [ih]
    by_cases h2 : c = '\\'
    · subst h2
      rw [show escapeChar '\\' = ['\\', '\\'] from rfl]
      rw [parseStrBody.eq_def]
      simp [ih]
    by_cases h3 : c = Char.ofNat 8
    · subst h3
      rw [show escapeChar (Char.ofNat 8) = ['\\', 'b'] from rfl]
      rw [parseStrBody.eq_def]
      simp [ih]
    by_cases h4 : c = Char.ofNat 9
    · subst h4
      rw [show escapeChar (Char.ofNat 9) = ['\\', 't'] from rfl]
      rw [parseStrBody.eq_def]
      simp [ih]
    by_cases h5 : c = Char.ofNat 10
    · subst h5
      rw [show escapeChar (Char.ofNat 10) = ['\\', 'n'] from rfl]
      rw [parseStrBody.eq_def]
      simp [ih]
    by_cases h6 : c = Char.ofNat 12
    · subst h6
      rw [show escapeChar (Char.ofNat 12) = ['\\', 'f'] from rfl]
      rw [parseStrBody.eq_def]
      simp [ih]
    by_cases h7 : c = Char.ofNat 13
    · subst h7
      rw [show escapeChar (Char.ofNat 13) = ['\\', 'r'] from rfl]
      rw [parseStrBody.eq_def]
      simp [ih]
    by_cases h8 : c.toNat < 32
    · rw [show escapeChar c
          = ['\\', 'u', '0', '0', hexDigitChar (c.toNat / 16), hexDigitChar (c.toNat % 16)] by
        simp only [escapeChar, if_neg h1, if_neg h2, if_neg h3, if_neg h4, if_neg h5,
          if_neg h6, if_neg h7, if_pos h8]]
      have e3 : hexDigitVal (hexDigitChar (c.toNat / 16)) = some (c.toNat / 16) :=
        hexVal_hexChar _ (by omega)
      have e4 : hexDigitVal (hexDigitChar (c.toNat % 16)) = some (c.toNat % 16) :=
        hexVal_hexChar _ (by omega)
      have hchar : Char.ofNat (c.toNat / 16 * 16 + c.toNat % 16) = c := by
        rw [show c.toNat / 16 * 16 + c.toNat % 16 = c.toNat by omega, Char.ofNat_toNat]
      rw [parseStrBody.eq_def]
      simp only [List.cons_append]
      simp [hex4Val, e3, e4, ih, show hexDigitVal '0' = some 0 from rfl, hchar]
    · rw [show escapeChar c = [c] by
        simp only [escapeChar, if_neg h1, if_neg h2, if_neg h3, if_neg h4, if_neg h5,
          if_neg h6, if_neg h7, if_neg h8]]
      rw [parseStrBody.eq_def]
      simp [h1, h2, h8, ih]

/-- Sufficient fuel is upward closed. -/
theorem parsesTo_mono {n n' : Nat} {cs : List Char} {j : Json} (h : n ≤ n')
    (hp : ParsesTo n cs j) : ParsesTo n' cs j :=
  fun fuel suffix hf => hp fuel suffix (le_trans h hf)

/-- Sufficient fuel for member lists is upward closed. -/
theorem membersParseTo_mono {n n' : Nat} {fields : List (String × Json)} (h : n ≤ n')
    (hp : MembersParseTo n fields) : MembersParseTo n' fields :=
  fun fuel suffix hf => hp fuel suffix (le_trans h hf)

/-- A boolean literal parses back. -/
theorem parsesTo_bool (b : Bool) : ParsesTo 1 (stringifyChars (.bool b)) (.bool b) := by
  intro fuel suffix hf
  obtain ⟨f, rfl⟩ : ∃ f, fuel = f + 1 := ⟨fuel - 1, by omega⟩
  cases b <;> rfl

/-- A string literal parses back. -/
theorem parsesTo_str (s : String) : ParsesTo 1 (stringifyChars (.str s)) (.str s) := by
  intro fuel suffix hf
  obtain ⟨f, rfl⟩ : ∃ f, fuel = f + 1 := ⟨fuel - 1, by omega⟩
  show parseVal (f + 1) (('"' :: (escapeChars s.data ++ ['"'])) ++ suffix) = _
  simp only [List.cons_append, List.append_assoc, List.singleton_append, List.nil_append]
  rw [show parseVal (f + 1) ('"' :: (escapeChars s.data ++ '"' :: suffix))
      = (parseStrBody (escapeChars s.data ++ '"' :: suffix)).map
          (fun p => (Json.str (String.mk p.1), p.2)) from rfl]
  rw [parseStrBody_escapeChars]
  simp [str_mk_data]

/-- A non-empty array of string literals parses back element by element. -/
theorem parseElems_strs (ts : List String) (hne : ts ≠ []) :
    ∀ fuel suffix, ts.length + 1 ≤ fuel →
      parseElems fuel (stringifyElems (ts.map .str) ++ ']' :: suffix)
        = some (ts.map .str, suffix) := by
  induction ts with
  | nil => exact absurd rfl hne
  | cons s tl ih =>
    intro fuel suffix hf
    simp only [List.length_cons] at hf
    obtain ⟨f, rfl⟩ : ∃ f, fuel = f + 1 := ⟨fuel - 1, by omega⟩
    cases tl with
    | nil =>
      show parseElems (f + 1) (stringifyChars (.str s) ++ ']' :: suffix) = _
      have h1 : parseVal f (stringifyChars (.str s) ++ ']' :: suffix)
          = some (.str s, ']' :: suffix) :=
        parsesTo_str s f (']' :: suffix) (by omega)
      rw [parseElems, h1]
      rfl
    | cons s2 tl2 =>
      show parseElems (f + 1)
          ((stringifyChars (.str s) ++ ',' :: stringifyElems ((s2 :: tl2).map .str))
            ++ ']' :: suffix) = _
      simp only [List.append_assoc, List.cons_append]
      have h1 : parseVal f (stringifyChars (.str s)
            ++ ',' :: (stringifyElems ((s2 :: tl2).map .str) ++ ']' :: suffix))
          = some (.str s, ',' :: (stringifyElems ((s2 :: tl2).map .str) ++ ']' :: suffix)) :=
        parsesTo_str s f _ (by omega)
      rw [parseElems, h1]
      have h2 := ih (by simp) f suffix (by simp only [List.length_cons] at hf ⊢; omega)
      show Option.map (fun p => (Json.str s :: p.1, p.2))
          (parseElems f (stringifyElems (List.map Json.str (s2 :: tl2)) ++ ']' :: suffix)) = _
      rw [h2]
      rfl

/-- An array of string literals parses back. -/
theorem parsesTo_strArr (ts : List String) :
    ParsesTo (ts.length + 2) (stringifyChars (.arr (ts.map .str))) (.arr (ts.map .str)) := by
  intro fuel suffix hf
  obtain ⟨f, rfl⟩ : ∃ f, fuel = f + 1 := ⟨fuel - 1, by omega⟩
  cases ts with
  | nil => rfl
  | cons s tl =>
    show parseVal (f + 1)
        (('[' :: (stringifyElems ((s :: tl).map .str) ++ [']'])) ++ suffix) = _
    simp only [List.cons_append, List.append_assoc, List.singleton_append, List.nil_append]
    obtain ⟨l, hl⟩ : ∃ l, stringifyElems ((s :: tl).map .str) = '"' :: l := by
      cases tl <;> exact ⟨_, rfl⟩
    rw [hl, List.cons_append]
    rw [show parseVal (f + 1) ('[' :: '"' :: (l ++ ']' :: suffix))
        = (parseElems f ('"' :: (l ++ ']' :: suffix))).map (fun p => (Json.arr p.1, p.2))
        from rfl]
    rw [show ('"' :: (l ++ ']' :: suffix)) = stringifyElems ((s :: tl).map .str) ++ ']' :: suffix
        by rw [hl]; rfl]
    rw [parseElems_strs (s :: tl) (by simp) f suffix (by omega)]
    rfl

/-- No whitespace skipping happens at a colon. -/
theorem skipWs_colon (X : List Char) : skipWs (':' :: X) = ':' :: X := rfl

/-- No whitespace skipping happens at a comma. -/
theorem skipWs_comma (X : List Char) : skipWs (',' :: X) = ',' :: X := rfl

/-- No whitespace skipping happens at a closing brace. -/
theorem skipWs_rbrace (X : List Char) : skipWs ('}' :: X) = '}' :: X := rfl

/-- No whitespace skipping happens at a quote. -/
theorem skipWs_quote (X : List Char) : skipWs ('"' :: X) = '"' :: X := rfl

/-- A single object member parses back, given that its value does. -/
theorem membersParseTo_single (k : String) (v : Json) (g : Nat)
    (hv : ParsesTo g (stringifyChars v) v) : MembersParseTo (g + 1) [(k, v)] := by
  intro fuel suffix hf
  obtain ⟨f, rfl⟩ : ∃ f, fuel = f + 1 := ⟨fuel - 1, by omega⟩
  show parseMembers (f + 1)
      (('"' :: (escapeChars k.data ++ '"' :: ':' :: stringifyChars v)) ++ '}' :: suffix) = _
  simp only [List.cons_append, List.append_assoc]
  rw [parseMembers]
  simp only [parseStrBody_escapeChars, skipWs_colon, hv f ('}' :: suffix) (by omega),
    skipWs_rbrace, str_mk_data]

/-- A leading object member parses back in front of further members. -/
theorem membersParseTo_cons (k : String) (v : Json) (g m : Nat)
    (rest : List (String × Json)) (hne : rest ≠ [])
    (hv : ParsesTo g (stringifyChars v) v) (hm : MembersParseTo m rest) :
    MembersParseTo (max g m + 1) ((k, v) :: rest) := by
  intro fuel suffix hf
  obtain ⟨f, rfl⟩ : ∃ f, fuel = f + 1 := ⟨fuel - 1, by omega⟩
  cases rest with
  | nil => exact absurd rfl hne
  | cons p2 tl2 =>
    show parseMembers (f + 1)
        ((('"' :: (escapeChars k.data ++ '"' :: ':' :: stringifyChars v))
          ++ ',' :: stringifyMembers (p2 :: tl2)) ++ '}' :: suffix) = _
    simp only [List.cons_append, List.append_assoc]
    rw [parseMembers]
    simp only [parseStrBody_escapeChars, skipWs_colon,
      hv f (',' :: (stringifyMembers (p2 :: tl2) ++ '}' :: suffix)) (by omega),
      skipWs_comma, str_mk_data]
    obtain ⟨l2, hl2⟩ : ∃ l2, stringifyMembers (p2 :: tl2) = '"' :: l2 := by
      obtain ⟨k2, v2⟩ := p2
      cases tl2 <;> exact ⟨_, rfl⟩
    rw [show skipWs (stringifyMembers (p2 :: tl2) ++ '}' :: suffix)
        = stringifyMembers (p2 :: tl2) ++ '}' :: suffix by rw [hl2]; rfl]
    rw [hm f suffix (by omega)]
    rfl

/-- A non-empty object parses back, given that its members do. -/
theorem parsesTo_obj (fields : List (String × Json)) (m : Nat) (hne : fields ≠ [])
    (hm : MembersParseTo m fields) :
    ParsesTo (m + 1) (stringifyChars (.obj fields)) (.obj fields) := by
  intro fuel suffix hf
  obtain ⟨f, rfl⟩ : ∃ f, fuel = f + 1 := ⟨fuel - 1, by omega⟩
  cases fields with
  | nil => exact absurd rfl hne
  | cons p tl =>
    show parseVal (f + 1) (('{' :: (stringifyMembers (p :: tl) ++ ['}'])) ++ suffix) = _
    simp only [List.cons_append, List.append_assoc, List.singleton_append, List.nil_append]
    obtain ⟨l, hl⟩ : ∃ l, stringifyMembers (p :: tl) = '"' :: l := by
      obtain ⟨k2, v2⟩ := p
      cases tl <;> exact ⟨_, rfl⟩
    rw [hl, List.cons_append]
    rw [show parseVal (f + 1) ('{' :: '"' :: (l ++ '}' :: suffix))
        = (parseMembers f ('"' :: (l ++ '}' :: suffix))).map (fun q => (Json.obj q.1, q.2))
        from rfl]
    rw [show ('"' :: (l ++ '}' :: suffix)) = stringifyMembers (p :: tl) ++ '}' :: suffix
        by rw [hl]; rfl]
    rw [hm f suffix (by omega)]
    rfl

/-- The member list of the canonical filter object parses back. -/
theorem membersParseTo_filters (w v h c : Bool) (ts : List String) :
    MembersParseTo (ts.length + 7)
      [("wheelchair", .bool w), ("visual", .bool v), ("hearing", .bool h),
       ("cognitive", .bool c), ("locationTypes", .arr (ts.map .str))] := by
  have m5 : MembersParseTo (ts.length + 3) [("locationTypes", Json.arr (ts.map .str))] :=
    membersParseTo_single _ _ _ (parsesTo_strArr ts)
  have m4 := membersParseTo_cons "cognitive" (.bool c) 1 (ts.length + 3) _ (by simp)
    (parsesTo_bool c) m5
  have m4' : MembersParseTo (ts.length + 4) _ := membersParseTo_mono (by omega) m4
  have m3 := membersParseTo_cons "hearing" (.bool h) 1 (ts.length + 4) _ (by simp)
    (parsesTo_bool h) m4'
  have m3' : MembersParseTo (ts.length + 5) _ := membersParseTo_mono (by omega) m3
  have m2 := membersParseTo_cons "visual" (.bool v) 1 (ts.length + 5) _ (by simp)
    (parsesTo_bool v) m3'
  have m2' : MembersParseTo (ts.length + 6) _ := membersParseTo_mono (by omega) m2
  have m1 := membersParseTo_cons "wheelchair" (.bool w) 1 (ts.length + 6) _ (by simp)
    (parsesTo_bool w) m2'
  exact membersParseTo_mono (by omega) m1

/-- The canonical filter object parses back. -/
theorem parsesTo_filters (w v h c : Bool) (ts : List String) :
    ParsesTo (ts.length + 8) (stringifyChars (filtersJson w v h c ts))
      (filtersJson w v h c ts) := by
  have := parsesTo_obj _ (ts.length + 7) (by simp [filtersJson])
    (membersParseTo_filters w v h c ts)
  exact parsesTo_mono (by omega) this

/-- The list length bounds the length of the stringified string array. -/
theorem le_length_stringifyElems (ts : List String) :
    ts.length ≤ (stringifyElems (ts.map .str)).length := by
  induction ts with
  | nil => simp
  | cons s tl ih =>
    cases tl with
    | nil =>
      show 1 ≤ (stringifyChars (.str s)).length
      show 1 ≤ ('"' :: (escapeChars s.data ++ ['"'])).length
      simp
    | cons s2 tl2 =>
      rw [show stringifyElems ((s :: s2 :: tl2).map .str)
          = stringifyChars (.str s) ++ ',' :: stringifyElems ((s2 :: tl2).map .str) from rfl]
      simp only [List.length_append, List.length_cons] at ih ⊢
      omega

/-- The stringified element list is no longer than the whole stringified
filter object. -/
theorem elems_le_filters (w v h c : Bool) (ts : List String) :
    (stringifyElems (ts.map .str)).length
      ≤ (stringifyChars (filtersJson w v h c ts)).length := by
  rw [show stringifyChars (filtersJson w v h c ts)
      = '{' :: ((('"' :: (escapeChars "wheelchair".data ++ '"' :: ':' :: stringifyChars (.bool w)))
        ++ ',' :: (('"' :: (escapeChars "visual".data ++ '"' :: ':' :: stringifyChars (.bool v)))
        ++ ',' :: (('"' :: (escapeChars "hearing".data ++ '"' :: ':' :: stringifyChars (.bool h)))
        ++ ',' :: (('"' :: (escapeChars "cognitive".data ++ '"' :: ':' :: stringifyChars (.bool c)))
        ++ ',' :: ('"' :: (escapeChars "locationTypes".data ++ '"' :: ':' ::
            ('[' :: (stringifyElems (ts.map .str) ++ [']'])))))))) ++ ['}']) from rfl]
  simp only [List.length_append, List.length_cons]
  omega

/-- Full round trip of the canonical filter object through
`JSON.stringify` and `JSON.parse`. -/
theorem jsonParse_stringify_filters (w v h c : Bool) (ts : List String) :
    jsonParse (jsonStringify (filtersJson w v h c ts)) = some (filtersJson w v h c ts) := by
  have hp := parsesTo_filters w v h c ts
  have hlen : ts.length + 8 ≤ (stringifyChars (filtersJson w v h c ts)).length + 20 := by
    have a1 := le_length_stringifyElems ts
    have a2 := elems_le_filters w v h c ts
    omega
  have hres := hp ((stringifyChars (filtersJson w v h c ts)).length + 20) [] hlen
  rw [List.append_nil] at hres
  unfold jsonParse jsonStringify
  rw [show (String.mk (stringifyChars (filtersJson w v h c ts))).data
      = stringifyChars (filtersJson w v h c ts) from rfl]
  rw [hres]
  rfl

/-- The member list of the preferences object parses back. -/
theorem membersParseTo_prefs (b : Bool) (t : String) :
    MembersParseTo 3 [("highContrast", .bool b), ("textSize", .str t)] := by
  have m2 : MembersParseTo 2 [("textSize", Json.str t)] :=
    membersParseTo_single _ _ _ (parsesTo_str t)
  have m1 := membersParseTo_cons "highContrast" (.bool b) 1 2 _ (by simp)
    (parsesTo_bool b) m2
  exact membersParseTo_mono (by omega) m1

/-- Full round trip of the preferences object through `JSON.stringify` and
`JSON.parse`. -/
theorem jsonParse_stringify_prefs (b : Bool) (t : String) :
    jsonParse (jsonStringify (prefsJson b t)) = some (prefsJson b t) := by
  have hp : ParsesTo 4 (stringifyChars (prefsJson b t)) (prefsJson b t) :=
    parsesTo_obj _ 3 (by simp [prefsJson]) (membersParseTo_prefs b t)
  have hres := hp ((stringifyChars (prefsJson b t)).length + 20) [] (by omega)
  rw [List.append_nil] at hres
  unfold jsonParse jsonStringify
  rw [show (String.mk (stringifyChars (prefsJson b t))).data
      = stringifyChars (prefsJson b t) from rfl]
  rw [hres]
  rfl

/-- `getItem` right after `setItem` returns the stored value. -/
theorem storeGet_storeSet (st : Store) (k v : String) : storeGet (storeSet st k v) k = some v := by
  induction st with
  | nil => simp [storeGet, storeSet, List.find?]
  | cons p rest ih =>
      by_cases hp : p.1 == k
      · simp [storeSet, hp, storeGet, List.find?]
      · simp [storeSet, hp, storeGet, List.find?] at ih ⊢
        exact ih

/-- A stringified object is never the empty (falsy) string. -/
theorem jsonStringify_obj_ne_empty (fields : List (String × Json)) :
    jsonStringify (.obj fields) ≠ "" := by
  intro heq
  have hdata : stringifyChars (.obj fields) = ([] : List Char) := congrArg String.data heq
  simp [stringifyChars] at hdata

/-- C3: saving any filter state and loading it on a fresh instance restores
exactly the same filter object, through the `accessibility_filters` key. -/
theorem filters_save_load_roundTrip (w v h c : Bool) (ts : List String) (store : Store) :
    ((loadSavedFilters
        { filters := defaultFiltersJson,
          store := ((saveFilters
            { filters := filtersJson w v h c ts, store := store } true).1).store }
        false).1).filters = filtersJson w v h c ts := by
  have hne : jsonStringify (filtersJson w v h c ts) ≠ "" := jsonStringify_obj_ne_empty _
  show ((loadSavedFilters
      { filters := defaultFiltersJson,
        store := storeSet store filtersStorageKey (jsonStringify (filtersJson w v h c ts)) }
      false).1).filters = _
  unfold loadSavedFilters
  simp only [Bool.false_eq_true, if_false, storeGet_storeSet, if_neg hne,
    jsonParse_stringify_filters]

/-- `loadPreferences` applies the preferences stored under the
`accessibility_preferences` key, whatever the server-provided attribute
holds. -/
theorem loadPreferences_restores (st0 : AppState) (store : Store) (dsPrefs : Option String)
    (hcb : Bool) (t : String) (ht : ¬ t = "")
    (hs : storeGet store prefsStorageKey = some (jsonStringify (prefsJson hcb t))) :
    (((loadPreferences st0 store false dsPrefs).1).highContrast = hcb)
    ∧ (((loadPreferences st0 store false dsPrefs).1).textSize = t) := by
  have hne : jsonStringify (prefsJson hcb t) ≠ "" := jsonStringify_obj_ne_empty _
  unfold loadPreferences
  rw [hs]
  simp only [Bool.false_eq_true, if_false, if_neg hne, jsonParse_stringify_prefs]
  rw [show jsTruthyField (prefsJson hcb t) "highContrast" = hcb from rfl]
  rw [show jsGetField (prefsJson hcb t) "textSize" = some (.str t) from rfl]
  cases dsPrefs with
  | none => simp [ht]
  | some d =>
      by_cases hd : d = ""
      · simp [hd, ht]
      · cases hjp : jsonParse d <;> simp [hd, hjp, ht]

/-- C4: saving the preferences and loading them on a fresh instance restores
exactly the contrast flag and the text size, through the
`accessibility_preferences` key. -/
theorem preferences_save_load_roundTrip (hcb : Bool) (t : String) (up : Option Json)
    (store : Store) (dsPrefs : Option String)
    (ht : t = "normal" ∨ t = "large" ∨ t = "xl") :
    (((loadPreferences initialAppState
        ((savePreferences { highContrast := hcb, textSize := t, userPreferences := up }
          store true).1)
        false dsPrefs).1).highContrast = hcb)
    ∧ (((loadPreferences initialAppState
        ((savePreferences { highContrast := hcb, textSize := t, userPreferences := up }
          store true).1)
        false dsPrefs).1).textSize = t) := by
  have ht' : ¬ t = "" := by rcases ht with rfl | rfl | rfl <;> decide
  exact loadPreferences_restores initialAppState _ dsPrefs hcb t ht' (storeGet_storeSet _ _ _)

/-- Witness for C4 at a concrete state. -/
theorem preferences_save_load_roundTrip_witness :
    (((loadPreferences initialAppState
        ((savePreferences
          { highContrast := true, textSize := "large", userPreferences := Option.none }
          emptyStore true).1)
        false Option.none).1).highContrast = true)
    ∧ (((loadPreferences initialAppState
        ((savePreferences
          { highContrast := true, textSize := "large", userPreferences := Option.none }
          emptyStore true).1)
        false Option.none).1).textSize = "large") :=
  preferences_save_load_roundTrip true "large" Option.none emptyStore Option.none
    (Or.inr (Or.inl rfl))

/-! ### API request shapes -/

/-- The digits of a natural number are decimal digit characters. -/
theorem natChars_all_digits (n : Nat) : ∀ c ∈ natChars n, c.isDigit = true := by
  induction n using Nat.strong_induction_on with
  | _ n ih =>
    rw [natChars.eq_def]
    split
    · rename_i h
      intro c hc
      simp only [List.mem_singleton] at hc
      subst hc
      interval_cases n <;> decide
    · rename_i h
      intro c hc
      rw [List.mem_append] at hc
      rcases hc with hc | hc
      · exact ih (n / 10) (Nat.div_lt_self (by omega) (by omega)) c hc
      · simp only [List.mem_singleton] at hc
        subst hc
        have hm : n % 10 < 10 := Nat.mod_lt _ (by omega)
        set k := n % 10 with hk
        interval_cases k <;> decide

/-- The rendering of a natural number is never empty. -/
theorem natChars_ne_nil (n : Nat) : natChars n ≠ [] := by
  rw [natChars.eq_def]
  split <;> simp

/-- `takeWhile` passes over a prefix every element of which satisfies the
predicate. -/
theorem takeWhile_append_of_all {p : Char → Bool} (l1 l2 : List Char)
    (h : ∀ a ∈ l1, p a = true) :
    List.takeWhile p (l1 ++ l2) = l1 ++ List.takeWhile p l2 := by
  induction l1 with
  | nil => simp
  | cons a tl ih =>
      simp only [List.cons_append, List.takeWhile_cons]
      rw [h a (by simp)]
      simp [ih (fun b hb => h b (by simp [hb]))]

/-- A prefix check succeeds on its own extension. -/
theorem listStartsWith_append (p rest : List Char) : listStartsWith p (p ++ rest) = true := by
  induction p with
  | nil => rfl
  | cons c cs ih => simp [listStartsWith, ih]

/-- Every search request has the search endpoint shape. -/
theorem requestShapeOf_searchUrl (q : String) : requestShapeOf (searchUrl q) = "/api/search" :=
  rfl

/-- Every listing request has the listing endpoint shape. -/
theorem requestShapeOf_locationsUrl (f : Json) :
    requestShapeOf (locationsUrl f) = "/api/locations" := rfl

/-- Every details request has the details endpoint shape. -/
theorem requestShapeOf_detailUrl (i : Nat) :
    requestShapeOf (locationDetailUrl i) = "/api/locations/:id" := by
  have hpath : urlPath (locationDetailUrl i) = "/api/locations/".data ++ natChars i := by
    show List.takeWhile _ ("/api/locations/".data ++ natChars i) = _
    rw [takeWhile_append_of_all _ _ (by decide)]
    rw [List.takeWhile_eq_self_iff.mpr]
    intro c hc
    have := natChars_all_digits i c hc
    revert this
    unfold Char.isDigit
    intro hdig
    simp only [decide_eq_true_eq]
    intro hq
    subst hq
    simp at hdig
  unfold requestShapeOf
  rw [hpath]
  rw [if_pos]
  constructor
  · exact listStartsWith_append _ _
  · have := natChars_ne_nil i
    simp only [List.length_append]
    have : 0 < (natChars i).length := List.length_pos.mpr (natChars_ne_nil i)
    omega

/-- The set of request shapes is exactly the three endpoint kinds. -/
theorem apiRequestShapes_eq :
    apiRequestShapes =
      {"/api/search", "/api/locations", "/api/locations/:id"} := by
  ext s
  constructor
  · intro hs
    rcases hs with ⟨q, rfl⟩ | ⟨f, rfl⟩ | ⟨i, rfl⟩
    · rw [requestShapeOf_searchUrl]
      simp
    · rw [requestShapeOf_locationsUrl]
      simp
    · rw [requestShapeOf_detailUrl]
      simp
  · intro hs
    simp only [Set.mem_insert_iff, Set.mem_singleton_iff] at hs
    rcases hs with rfl | rfl | rfl
    · exact Or.inl ⟨"", (requestShapeOf_searchUrl "").symm⟩
    · exact Or.inr (Or.inl ⟨Json.null, (requestShapeOf_locationsUrl Json.null).symm⟩)
    · exact Or.inr (Or.inr ⟨0, (requestShapeOf_detailUrl 0).symm⟩)

/-- The three endpoint shapes. -/
theorem apiRequestShapes_ncard : apiRequestShapes.ncard = 3 := by
  rw [apiRequestShapes_eq]
  rw [Set.ncard_insert_of_not_mem (by simp) ((Set.finite_singleton _).insert _)]
  rw [Set.ncard_insert_of_not_mem (by simp) (Set.finite_singleton _)]
  rw [Set.ncard_singleton]

/-- C6 counterexample: the set of distinct API request shapes the map
component produces does not have size two. -/
theorem api_request_shapes_card_ne_two : apiRequestShapes.ncard ≠ 2 := by
  rw [apiRequestShapes_ncard]
  omega

/-- C6 (amended): the map component produces exactly three API request
shapes: search, listing, and location details. -/
theorem api_request_shapes_eq_three :
    apiRequestShapes = {"/api/search", "/api/locations", "/api/locations/:id"}
    ∧ apiRequestShapes.ncard = 3 :=
  ⟨apiRequestShapes_eq, apiRequestShapes_ncard⟩

/-! ### Error handling -/

/-- C5 counterexample: `loadPreferences` is not atomic on error.  With valid
stored preferences and a malformed server-provided `data-preferences`
attribute, the JSON parse throws and is caught and logged, yet the
in-memory preference state has already changed from its initial value. -/
theorem loadPreferences_not_atomic_cex :
    (loadPreferences initialAppState
        ((savePreferences
          { highContrast := true, textSize := "large", userPreferences := Option.none }
          emptyStore true).1)
        false (some (String.mk ['{']))) =
      ({ highContrast := true, textSize := "large", userPreferences := Option.none },
        [Effect.logWarn "Could not load preferences from localStorage:"])
    ∧ ({ highContrast := true, textSize := "large",
          userPreferences := Option.none } : AppState) ≠ initialAppState := by
  constructor
  · rfl
  · intro heq
    have := congrArg AppState.highContrast heq
    simp [initialAppState] at this

/-- C5 (amended): every storage error in `saveFilters`, `loadSavedFilters`,
`savePreferences` and `loadPreferences` is caught locally and only logged;
`saveFilters`, `loadSavedFilters` and `savePreferences` leave the state
unchanged on every error, and `loadPreferences` leaves it unchanged on a
`getItem` throw or a stored-blob parse error, while a parse error on the
server-provided attribute keeps the already-applied stored preferences with
no rollback; every fetch rejection in `searchLocations`, `loadLocations` and
`showLocationDetails` is surfaced only as a logged error plus a static
error rendering or notification. -/
theorem storage_fetch_errors_caught :
    (∀ st : FiltersState, saveFilters st false =
      (st, [Effect.logWarn "Could not save filters to localStorage:"]))
    ∧ (∀ (st : FiltersState) (setOk : Bool), ((saveFilters st setOk).1).filters = st.filters)
    ∧ (∀ st : FiltersState, loadSavedFilters st true =
      (st, [Effect.logWarn "Could not load filters from localStorage:"]))
    ∧ (∀ (st : FiltersState) (s : String), storeGet st.store filtersStorageKey = some s →
        ¬ s = "" → jsonParse s = Option.none →
        loadSavedFilters st false =
          (st, [Effect.logWarn "Could not load filters from localStorage:"]))
    ∧ (∀ (stA : AppState) (store : Store), savePreferences stA store false =
        (store, [Effect.logWarn "Could not save preferences to localStorage:"]))
    ∧ (∀ (stA : AppState) (store : Store) (ds : Option String),
        loadPreferences stA store true ds =
          (stA, [Effect.logWarn "Could not load preferences from localStorage:"]))
    ∧ (∀ (stA : AppState) (store : Store) (ds : Option String) (s : String),
        storeGet store prefsStorageKey = some s → ¬ s = "" → jsonParse s = Option.none →
        loadPreferences stA store false ds =
          (stA, [Effect.logWarn "Could not load preferences from localStorage:"]))
    ∧ (∀ (stA : AppState) (store : Store) (d : String) (hcb : Bool) (t : String),
        ¬ t = "" → storeGet store prefsStorageKey = some (jsonStringify (prefsJson hcb t)) →
        ¬ d = "" → jsonParse d = Option.none →
        loadPreferences stA store false (some d) =
          ({ stA with highContrast := hcb, textSize := t },
            [Effect.logWarn "Could not load preferences from localStorage:"]))
    ∧ (∀ q : String, searchLocations q Option.none =
        [Effect.fetch (searchUrl q), Effect.logError "Search error:",
          Effect.renderSearchError])
    ∧ (∀ st : MapState, loadLocations st Option.none =
        ({ st with approved := [], pending := [] },
          [Effect.fetch (locationsUrl st.currentFilters),
            Effect.logError "Error loading locations:",
            Effect.notify "Error loading locations. Please try again." "error"]))
    ∧ (∀ i : Nat, showLocationDetails i Option.none =
        [Effect.fetch (locationDetailUrl i),
          Effect.logError "Error loading location details:",
          Effect.notify "Error loading location details. Please try again." "error"]) := by
  refine ⟨fun st => rfl, ?_, fun st => rfl, ?_, fun stA store => rfl, fun stA store ds => rfl,
    ?_, ?_, fun q => rfl, fun st => rfl, fun i => rfl⟩
  · intro st setOk
    cases setOk <;> rfl
  · intro st s hs hne hparse
    unfold loadSavedFilters
    rw [hs]
    simp [hne, hparse]
  · intro stA store ds s hs hne hparse
    unfold loadPreferences
    rw [hs]
    simp [hne, hparse]
  · intro stA store d hcb t ht hs hd hparse
    have hne : jsonStringify (prefsJson hcb t) ≠ "" := jsonStringify_obj_ne_empty _
    unfold loadPreferences
    rw [hs]
    simp only [Bool.false_eq_true, if_false, if_neg hne, jsonParse_stringify_prefs]
    rw [show jsTruthyField (prefsJson hcb t) "highContrast" = hcb from rfl]
    rw [show jsGetField (prefsJson hcb t) "textSize" = some (.str t) from rfl]
    simp [hd, hparse, ht]

/-- Witness for C5's amended theorem: a stored blob that fails to parse is
logged and leaves a concrete filter state untouched. -/
theorem storage_fetch_errors_caught_witness :
    loadSavedFilters
        { filters := defaultFiltersJson,
          store := [(filtersStorageKey, String.mk ['{'])] } false =
      ({ filters := defaultFiltersJson,
          store := [(filtersStorageKey, String.mk ['{'])] },
        [Effect.logWarn "Could not load filters from localStorage:"]) :=
  storage_fetch_errors_caught.2.2.2.1
    { filters := defaultFiltersJson, store := [(filtersStorageKey, String.mk ['{'])] }
    (String.mk ['{']) rfl (by decide) rfl

/-! ### The filter shape invariant -/

/-- Setting the wheelchair member keeps the canonical shape. -/
theorem jsObjSet_filters_wheelchair (w v h c b : Bool) (ts : List String) :
    jsObjSet (filtersJson w v h c ts) "wheelchair" (.bool b) = some (filtersJson b v h c ts) :=
  rfl

/-- Setting the visual member keeps the canonical shape. -/
theorem jsObjSet_filters_visual (w v h c b : Bool) (ts : List String) :
    jsObjSet (filtersJson w v h c ts) "visual" (.bool b) = some (filtersJson w b h c ts) :=
  rfl

/-- Setting the hearing member keeps the canonical shape. -/
theorem jsObjSet_filters_hearing (w v h c b : Bool) (ts : List String) :
    jsObjSet (filtersJson w v h c ts) "hearing" (.bool b) = some (filtersJson w v b c ts) :=
  rfl

/-- Setting the cognitive member keeps the canonical shape. -/
theorem jsObjSet_filters_cognitive (w v h c b : Bool) (ts : List String) :
    jsObjSet (filtersJson w v h c ts) "cognitive" (.bool b) = some (filtersJson w v h b ts) :=
  rfl

/-- Setting the location-type list keeps the canonical shape. -/
theorem jsObjSet_filters_locationTypes (w v h c : Bool) (ts ts2 : List String) :
    jsObjSet (filtersJson w v h c ts) "locationTypes" (.arr (ts2.map .str))
      = some (filtersJson w v h c ts2) := rfl

/-- Reading the location-type list of the canonical object. -/
theorem jsGetField_filters_locationTypes (w v h c : Bool) (ts : List String) :
    jsGetField (filtersJson w v h c ts) "locationTypes" = some (.arr (ts.map .str)) := rfl

/-- Filtering a list of string values yields a list of string values. -/
theorem filter_map_str (p : Json → Bool) (l : List String) :
    ∃ l' : List String, (l.map Json.str).filter p = l'.map Json.str := by
  induction l with
  | nil => exact ⟨[], rfl⟩
  | cons s tl ih =>
    obtain ⟨l', hl'⟩ := ih
    by_cases hp : p (.str s)
    · exact ⟨s :: l', by simp [hp, hl']⟩
    · exact ⟨l', by simp [hp, hl']⟩

/-- `saveFilters` preserves the invariant and never touches the filters. -/
theorem saveFilters_inv (st : FiltersState) (setOk : Bool) (hinv : FiltersInv st) :
    FiltersInv (saveFilters st setOk).1 := by
  cases setOk
  · exact hinv
  · refine ⟨hinv.1, ?_⟩
    intro s hs
    rw [show ((saveFilters st true).1).store
        = storeSet st.store filtersStorageKey (jsonStringify st.filters) from rfl] at hs
    rw [storeGet_storeSet] at hs
    exact ⟨st.filters, hinv.1, (Option.some.inj hs).symm⟩

/-- Every operation of the filters component succeeds and preserves the
invariant, from an invariant state. -/
theorem stepF_inv (st : FiltersState) (op : FOp) (hinv : FiltersInv st) :
    ∃ st', stepF st op = some st' ∧ FiltersInv st' := by
  obtain ⟨fil, store⟩ := st
  obtain ⟨⟨w, v, h, c, ts, hfil⟩, hstore⟩ := hinv
  simp only at hfil
  subst hfil
  simp only at hstore
  cases op with
  | load getThrow =>
    cases getThrow
    · cases hg : storeGet store filtersStorageKey with
      | none =>
        refine ⟨⟨filtersJson w v h c ts, store⟩, ?_, ⟨⟨w, v, h, c, ts, rfl⟩, hstore⟩⟩
        simp [stepF, loadSavedFilters, hg]
      | some s =>
        obtain ⟨j, ⟨w', v', h', c', ts', hj⟩, hs⟩ := hstore s hg
        subst hj
        subst hs
        refine ⟨⟨filtersJson w' v' h' c' ts', store⟩, ?_, ⟨⟨w', v', h', c', ts', rfl⟩, hstore⟩⟩
        have hne : jsonStringify (filtersJson w' v' h' c' ts') ≠ "" :=
          jsonStringify_obj_ne_empty _
        simp only [stepF, loadSavedFilters, Bool.false_eq_true, if_false, hg, if_neg hne,
          jsonParse_stringify_filters]
    · exact ⟨⟨filtersJson w v h c ts, store⟩, rfl, ⟨⟨w, v, h, c, ts, rfl⟩, hstore⟩⟩
  | toggleBtn ft isActive setOk =>
    cases ft
    · exact ⟨(saveFilters ⟨filtersJson isActive v h c ts, store⟩ setOk).1, rfl,
        saveFilters_inv _ _ ⟨⟨isActive, v, h, c, ts, rfl⟩, hstore⟩⟩
    · exact ⟨(saveFilters ⟨filtersJson w isActive h c ts, store⟩ setOk).1, rfl,
        saveFilters_inv _ _ ⟨⟨w, isActive, h, c, ts, rfl⟩, hstore⟩⟩
    · exact ⟨(saveFilters ⟨filtersJson w v isActive c ts, store⟩ setOk).1, rfl,
        saveFilters_inv _ _ ⟨⟨w, v, isActive, c, ts, rfl⟩, hstore⟩⟩
    · exact ⟨(saveFilters ⟨filtersJson w v h isActive ts, store⟩ setOk).1, rfl,
        saveFilters_inv _ _ ⟨⟨w, v, h, isActive, ts, rfl⟩, hstore⟩⟩
  | toggleType t isChecked setOk =>
    have hmain : ∃ ts', stepF ⟨filtersJson w v h c ts, store⟩ (.toggleType t isChecked setOk)
        = some ((saveFilters ⟨filtersJson w v h c ts', store⟩ setOk).1) := by
      cases isChecked
      · obtain ⟨ts', hts'⟩ := filter_map_str (fun e => ! jsStrictEqStr e t) ts
        refine ⟨ts', ?_⟩
        simp [stepF, toggleTypeFilter, jsGetField_filters_locationTypes, hts',
          jsObjSet_filters_locationTypes]
      · by_cases ha : (ts.map Json.str).any (fun e => jsStrictEqStr e t)
        · refine ⟨ts, ?_⟩
          simp [stepF, toggleTypeFilter, jsGetField_filters_locationTypes, ha,
            jsObjSet_filters_locationTypes]
        · refine ⟨ts ++ [t], ?_⟩
          simp only [stepF, toggleTypeFilter, jsGetField_filters_locationTypes, if_true, ha,
            Bool.false_eq_true, if_false]
          rw [show (ts.map Json.str) ++ [Json.str t] = (ts ++ [t]).map Json.str by simp]
          rw [jsObjSet_filters_locationTypes]
          simp
    obtain ⟨ts', hts'⟩ := hmain
    exact ⟨(saveFilters ⟨filtersJson w v h c ts', store⟩ setOk).1, hts',
      saveFilters_inv _ _ ⟨⟨w, v, h, c, ts', rfl⟩, hstore⟩⟩
  | reset setOk =>
    exact ⟨(saveFilters ⟨defaultFiltersJson, store⟩ setOk).1, rfl,
      saveFilters_inv _ _ ⟨⟨false, false, false, false, [], rfl⟩, hstore⟩⟩
  | setPrefs prefs setOk =>
    cases htr : jsTruthy prefs
    · refine ⟨⟨filtersJson w v h c ts, store⟩, ?_, ⟨⟨w, v, h, c, ts, rfl⟩, hstore⟩⟩
      simp [stepF, setFromUserPreferences, htr]
    · obtain ⟨w1, hw1⟩ : ∃ w1, (if jsTruthyField prefs "needs_wheelchair" then
          jsObjSet (filtersJson w v h c ts) "wheelchair" (.bool true)
        else some (filtersJson w v h c ts)) = some (filtersJson w1 v h c ts) := by
        cases hc1 : jsTruthyField prefs "needs_wheelchair"
        · exact ⟨w, by simp [hc1]⟩
        · exact ⟨true, by simp [hc1, jsObjSet_filters_wheelchair]⟩
      obtain ⟨v1, hv1⟩ : ∃ v1, (if jsTruthyField prefs "needs_visual_assistance" then
          jsObjSet (filtersJson w1 v h c ts) "visual" (.bool true)
        else some (filtersJson w1 v h c ts)) = some (filtersJson w1 v1 h c ts) := by
        cases hc2 : jsTruthyField prefs "needs_visual_assistance"
        · exact ⟨v, by simp [hc2]⟩
        · exact ⟨true, by simp [hc2, jsObjSet_filters_visual]⟩
      obtain ⟨h1, hh1⟩ : ∃ h1, (if jsTruthyField prefs "needs_hearing_assistance" then
          jsObjSet (filtersJson w1 v1 h c ts) "hearing" (.bool true)
        else some (filtersJson w1 v1 h c ts)) = some (filtersJson w1 v1 h1 c ts) := by
        cases hc3 : jsTruthyField prefs "needs_hearing_assistance"
        · exact ⟨h, by simp [hc3]⟩
        · exact ⟨true, by simp [hc3, jsObjSet_filters_hearing]⟩
      obtain ⟨c1, hc1'⟩ : ∃ c1, (if jsTruthyField prefs "needs_cognitive_assistance" then
          jsObjSet (filtersJson w1 v1 h1 c ts) "cognitive" (.bool true)
        else some (filtersJson w1 v1 h1 c ts)) = some (filtersJson w1 v1 h1 c1 ts) := by
        cases hc4 : jsTruthyField prefs "needs_cognitive_assistance"
        · exact ⟨c, by simp [hc4]⟩
        · exact ⟨true, by simp [hc4, jsObjSet_filters_cognitive]⟩
      refine ⟨(saveFilters ⟨filtersJson w1 v1 h1 c1 ts, store⟩ setOk).1, ?_,
        saveFilters_inv _ _ ⟨⟨w1, v1, h1, c1, ts, rfl⟩, hstore⟩⟩
      simp only [stepF, setFromUserPreferences, htr, hw1, hv1, hh1, hc1']
      simp

/-- C7: starting from the default state on a fresh browser profile, every
sequence of filter operations succeeds (no uncaught exception) and leaves
the filters object with exactly the four booleans and the list of
location-type strings. -/
theorem filters_shape_invariant (ops : List FOp) :
    ∃ st, runOps initialFiltersState ops = some st ∧ CanonicalFilters st.filters := by
  have hrun : ∀ (l : List FOp) (st : FiltersState), FiltersInv st →
      ∃ st', runOps st l = some st' ∧ FiltersInv st' := by
    intro l
    induction l with
    | nil => exact fun st hinv => ⟨st, rfl, hinv⟩
    | cons op rest ih =>
      intro st hinv
      obtain ⟨st1, hstep, hinv1⟩ := stepF_inv st op hinv
      obtain ⟨st2, hrun2, hinv2⟩ := ih st1 hinv1
      refine ⟨st2, ?_, hinv2⟩
      rw [runOps, hstep]
      exact hrun2
  have hinit : FiltersInv initialFiltersState := by
    refine ⟨⟨false, false, false, false, [], rfl⟩, ?_⟩
    intro s hs
    simp [initialFiltersState, emptyStore, storeGet] at hs
  obtain ⟨st, h1, h2⟩ := hrun ops initialFiltersState hinit
  exact ⟨st, h1, h2.1⟩

end TAM
